import Mathlib

/-!
# LL-AVR: hardware timers and servo pulse generation

A shallow embedding of `src/include/llavr-common.h`, `src/src/HardwareTimer.cpp`
and `src/src/HardwareServo.cpp`, followed by theorems about it.

Modelling conventions.

* The target is AVR (avr-gcc): `int` and `unsigned int` are 16 bits wide, so
  `uint16_t` operands are not promoted to a wider type and `uint16_t`
  arithmetic wraps modulo `2 ^ 16`; `unsigned long` is 32 bits wide.  Unsigned
  machine integers are natural numbers with an explicit `% 2 ^ w` wherever the
  source can wrap or truncate.
* A `float` is the rational number it denotes.  Every float operation of the
  source (`+`, `-`, `*`, `/`) is the exact operation followed by `f32`, the
  rounding of the IEEE 754 binary32 format (24 significant bits, subnormal
  numbers below `2 ^ (-126)`, nearest value, a tie going to the even
  significand).  avr-gcc gives `double` the same 32-bit format, so the constant
  `0.5` of the macro `round` does not widen the sum.  Overflow to an infinity
  and NaN are not represented: `f32` rounds as if the exponent had no upper
  bound.  The conversion of a `uint16_t` to `float` is exact (every integer
  below `2 ^ 24` is a binary32 value) and is written as a plain cast.
* A `HardwareTimer` value carries both the fields of the C++ object and the
  part of the machine state the object reaches through its pointers (`Mcu`):
  the registers of its timer/counter peripheral, the port direction registers
  used by the servo code, `SREG`, and the sequence of register stores made so
  far.  A register pointer is `Option Reg`, `none` being `NOREG`.
* The debug output through `Serial` is left out.
-/

namespace LLAVR

/-! ## The 32-bit float format -/

/-- The recursion behind `natLog2`, with the recursion depth bounded by
`fuel`. -/
def log2Fuel : Nat → Nat → Nat
  | 0, _ => 0
  | fuel + 1, n => if 2 ≤ n then log2Fuel fuel (n / 2) + 1 else 0

/-- The binary logarithm of a positive natural number, rounded down. -/
def natLog2 (n : Nat) : Nat := log2Fuel n n

/-- The binary logarithm of the positive rational `p / q`, rounded down: the
exponent `e` with `2 ^ e ≤ p / q < 2 ^ (e + 1)`. -/
def ilog2 (p q : Nat) : ℤ :=
  if q ≤ p then (natLog2 (p / q) : ℤ)
  else
    let k := natLog2 (q / p)
    if q ≤ p * 2 ^ k then -(k : ℤ) else -((k : ℤ) + 1)

/-- The power `2 ^ z` for an integer `z`. -/
def pow2 (z : ℤ) : ℚ :=
  if 0 ≤ z then ((2 ^ z.toNat : Nat) : ℚ) else 1 / ((2 ^ (-z).toNat : Nat) : ℚ)

/-- Rounding to the nearest integer, a tie going to the even one. -/
def roundEven (q : ℚ) : ℤ :=
  let f := q.num / (q.den : ℤ)
  let r := q - (f : ℚ)
  if r < 1 / 2 then f else if 1 / 2 < r then f + 1 else if f % 2 = 0 then f else f + 1

/-- Rounding to the binary32 format: the value is rounded to a multiple of the
spacing `2 ^ (e - 23)` of binary32 values around it, where `e` is its binary
exponent and at least `-126` (below that the numbers are subnormal). -/
def f32 (x : ℚ) : ℚ :=
  if x = 0 then 0
  else
    let e := max (ilog2 x.num.natAbs x.den) (-126)
    let ulp := pow2 (e - 23)
    (roundEven (x / ulp) : ℚ) * ulp

/-! ## llavr-common.h -/

/-- The cast `(long)x` of a float: truncation toward zero.  The 32-bit range
of `long` is not represented; every use is followed by a cast to `uint16_t`. -/
def toLong (x : ℚ) : ℤ := Int.tdiv x.num x.den

/-- The macro `round(x)`: `((x)>=0?(long)((x)+0.5):(long)((x)-0.5))`, for a
float `x`.  The sum and the difference are float operations. -/
def round (x : ℚ) : ℤ :=
  if x ≥ 0 then toLong (f32 (x + 1 / 2)) else toLong (f32 (x - 1 / 2))

/-- The cast `(uint16_t)z` of a `long`: reduction modulo `2 ^ 16`. -/
def toUint16 (z : ℤ) : Nat := (z % 65536).toNat

/-- The macro `lowByte(w)`: `((uint8_t) ((w) & 0xff))`. -/
def lowByte (w : Nat) : Nat := (w &&& 0xff) % 256

/-- The macro `highByte(w)`: `((uint8_t) ((w) >> 8))`. -/
def highByte (w : Nat) : Nat := (w >>> 8) % 256

/-- The macro `bit(num)`, that is `_BV(num)`: `1 << num`. -/
def bit (num : Nat) : Nat := 1 <<< num

/-- The macro `bitSet(value, bit)`, as the new value of `value`. -/
def bitSet (value b : Nat) : Nat := value ||| (1 <<< b)

/-! ## Bit positions from `avr/io.h` (ATmega2560) -/

def CS00 : Nat := 0
def CS01 : Nat := 1
def CS02 : Nat := 2
def WGM00 : Nat := 0
def WGM01 : Nat := 1
def WGM11 : Nat := 1
def WGM12 : Nat := 3
def WGM13 : Nat := 4
def COM0A0 : Nat := 6
def COM0B0 : Nat := 4
def COM1C0 : Nat := 2
def PB5 : Nat := 5
def PB6 : Nat := 6
def PB7 : Nat := 7
def PE3 : Nat := 3
def PE4 : Nat := 4
def PE5 : Nat := 5
def PH3 : Nat := 3
def PH4 : Nat := 4
def PH5 : Nat := 5
def PL3 : Nat := 3
def PL4 : Nat := 4
def PL5 : Nat := 5

/-! ## Machine state -/

/-- The 8-bit I/O registers one timer object and the servo code can reach:
the registers of one timer/counter peripheral and the port direction
registers. -/
inductive Reg
  | TCCRnA | TCCRnB | TCCRnC
  | TCNTnH | TCNTnL
  | OCRnAH | OCRnAL
  | OCRnBH | OCRnBL
  | OCRnCH | OCRnCL
  | ICRnH | ICRnL
  | TIMSKn | TIFRn
  | DDRB | DDRE | DDRH | DDRL
deriving DecidableEq

/-- One store to an I/O register: the register, the byte stored, and whether
global interrupts were enabled (bit 7 of `SREG`) when it was made. -/
structure Write where
  reg : Reg
  val : Nat
  irq : Bool
deriving DecidableEq

/-- Register contents, the status register, and the stores made so far
(oldest first). -/
structure Mcu where
  mem : Reg → Nat
  SREG : Nat
  trace : List Write

/-- Reading `*p` for a `volatile uint8_t *p`.  No predefined timer reads
through `NOREG`; the model returns 0 there. -/
def Mcu.load (hw : Mcu) (p : Option Reg) : Nat :=
  match p with
  | none => 0
  | some r => hw.mem r % 256

/-- The assignment `*p = v` for a `volatile uint8_t *p`.  No predefined timer
stores through `NOREG`; the model leaves the state unchanged there. -/
def Mcu.store (hw : Mcu) (p : Option Reg) (v : Nat) : Mcu :=
  match p with
  | none => hw
  | some r =>
    { hw with
      mem := fun x => if x = r then v % 256 else hw.mem x
      trace := hw.trace ++ [⟨r, v % 256, hw.SREG.testBit 7⟩] }

/-- The instruction `cli()`: clear the global interrupt enable bit of `SREG`. -/
def Mcu.cli (hw : Mcu) : Mcu := { hw with SREG := hw.SREG &&& 0x7f }

/-- The macro `sbi(sfr, bit)`: `_SFR_BYTE(sfr) |= _BV(bit)`. -/
def Mcu.sbi (hw : Mcu) (sfr : Reg) (b : Nat) : Mcu :=
  hw.store (some sfr) (hw.load (some sfr) ||| bit b)

/-! ## HardwareTimer.h, HardwareTimer.cpp -/

inductive TimerPrescaler
  | TIMER_PRESCALE_NONE
  | TIMER_PRESCALE_8
  | TIMER_PRESCALE_64
  | TIMER_PRESCALE_256
  | TIMER_PRESCALE_1024
deriving DecidableEq

open TimerPrescaler

def TIMER_OCR_A : Nat := bit 0
def TIMER_OCR_B : Nat := bit 1
def TIMER_OCR_C : Nat := bit 2

def __CS_PRESCALE_NONE : Nat := (bit CS00) % 256
def __CS_PRESCALE_8 : Nat := (bit CS01) % 256
def __CS_PRESCALE_64 : Nat := (bit CS00 ||| bit CS01) % 256
def __CS_PRESCALE_256 : Nat := (bit CS02) % 256
def __CS_PRESCALE_1024 : Nat := (bit CS00 ||| bit CS02) % 256

/-- The function `__setClockSelect(&value, ps)`, as the new `value`. -/
def __setClockSelect (value : Nat) (ps : TimerPrescaler) : Nat :=
  match ps with
  | TIMER_PRESCALE_NONE => (value ||| __CS_PRESCALE_NONE) % 256
  | TIMER_PRESCALE_8 => (value ||| __CS_PRESCALE_8) % 256
  | TIMER_PRESCALE_64 => (value ||| __CS_PRESCALE_64) % 256
  | TIMER_PRESCALE_256 => (value ||| __CS_PRESCALE_256) % 256
  | TIMER_PRESCALE_1024 => (value ||| __CS_PRESCALE_1024) % 256

/-- The function `__setWideReg(regH, regL, value)`: the high byte is stored
first, and only when `regH != NOREG`. -/
def __setWideReg (regH regL : Option Reg) (value : Nat) (hw : Mcu) : Mcu :=
  let hw := if regH ≠ none then hw.store regH (highByte value) else hw
  hw.store regL (lowByte value)

/-- The class `HardwareTimer`: its fields, together with the machine state
`hw` its register pointers refer to. -/
structure HardwareTimer where
  is16Bit : Bool
  numOcrChannels : Nat
  tccrA : Option Reg
  tccrB : Option Reg
  tccrC : Option Reg
  tcnth : Option Reg
  tcntl : Option Reg
  ocrAh : Option Reg
  ocrAl : Option Reg
  ocrBh : Option Reg
  ocrBl : Option Reg
  ocrCh : Option Reg
  ocrCl : Option Reg
  icrh : Option Reg
  icrl : Option Reg
  timsk : Option Reg
  tifr : Option Reg
  prescale : TimerPrescaler
  hw : Mcu

/-- The constructor `HardwareTimer::HardwareTimer`: the staged prescaler
starts as `TIMER_PRESCALE_NONE`. -/
def HardwareTimer.new (is16Bit : Bool) (numCompareChannels : Nat)
    (tccrA tccrB tccrC tcnth tcntl ocrAh ocrAl ocrBh ocrBl ocrCh ocrCl
      icrh icrl timsk tifr : Option Reg) (hw : Mcu) : HardwareTimer :=
  { is16Bit := is16Bit, numOcrChannels := numCompareChannels,
    tccrA := tccrA, tccrB := tccrB, tccrC := tccrC,
    tcnth := tcnth, tcntl := tcntl,
    ocrAh := ocrAh, ocrAl := ocrAl,
    ocrBh := ocrBh, ocrBl := ocrBl,
    ocrCh := ocrCh, ocrCl := ocrCl,
    icrh := icrh, icrl := icrl,
    timsk := timsk, tifr := tifr,
    prescale := TIMER_PRESCALE_NONE, hw := hw }

/-- `HardwareTimer::setPrescaler`. -/
def HardwareTimer.setPrescaler (t : HardwareTimer) (prescale : TimerPrescaler) :
    HardwareTimer :=
  if prescale ≠ t.prescale then { t with prescale := prescale } else t

/-- `HardwareTimer::resetTimerControl`. -/
def HardwareTimer.resetTimerControl (t : HardwareTimer)
    (controlA controlB controlC : Nat) : HardwareTimer :=
  let saveSreg := t.hw.SREG
  let hw := t.hw.cli
  let hw := hw.store t.tccrA controlA
  let hw := if t.is16Bit then hw.store t.tccrC controlC else hw
  let hw := hw.store t.tccrB controlB
  { t with hw := { hw with SREG := saveSreg } }

/-- `HardwareTimer::setNormalMode`. -/
def HardwareTimer.setNormalMode (t : HardwareTimer) : HardwareTimer :=
  let ctrlA := 0
  let ctrlB := 0
  let ctrlC := 0
  let ctrlB := __setClockSelect ctrlB t.prescale
  let t := t.resetTimerControl ctrlA ctrlB ctrlC
  { t with hw := __setWideReg t.tcnth t.tcntl 0 t.hw }

/-- `HardwareTimer::setFastPwmMode`. -/
def HardwareTimer.setFastPwmMode (t : HardwareTimer) (topValue : Nat) :
    HardwareTimer :=
  let ctrlA := 0
  let ctrlB := 0
  let ctrlC := 0
  let (ctrlA, ctrlB, hw) :=
    if t.is16Bit then
      (bitSet ctrlA WGM11 % 256, bitSet (bitSet ctrlB WGM12 % 256) WGM13 % 256,
        __setWideReg t.icrh t.icrl topValue t.hw)
    else
      (bitSet (bitSet ctrlA WGM00 % 256) WGM01 % 256, ctrlB, t.hw)
  let ctrlB := __setClockSelect ctrlB t.prescale
  let t := { t with hw := hw }.resetTimerControl ctrlA ctrlB ctrlC
  { t with hw := __setWideReg t.tcnth t.tcntl 0 t.hw }

/-- `HardwareTimer::setCompareValue`. -/
def HardwareTimer.setCompareValue (t : HardwareTimer) (channels value : Nat)
    (inverting : Bool) : HardwareTimer :=
  let comVal := bitSet 0 1 % 256
  let comVal := if inverting then bitSet comVal 0 % 256 else comVal
  let curTccrA := t.hw.load t.tccrA
  let curTccrB := t.hw.load t.tccrB
  let curTccrC := if t.is16Bit then t.hw.load t.tccrC else 0
  let (curTccrA, hw) :=
    if channels &&& TIMER_OCR_A ≠ 0 then
      ((curTccrA ||| (comVal <<< COM0A0)) % 256,
        __setWideReg t.ocrAh t.ocrAl value t.hw)
    else (curTccrA, t.hw)
  let (curTccrA, hw) :=
    if channels &&& TIMER_OCR_B ≠ 0 then
      ((curTccrA ||| (comVal <<< COM0B0)) % 256,
        __setWideReg t.ocrBh t.ocrBl value hw)
    else (curTccrA, hw)
  let (curTccrA, hw) :=
    if t.is16Bit ∧ channels &&& TIMER_OCR_C ≠ 0 then
      ((curTccrA ||| (comVal <<< COM1C0)) % 256,
        __setWideReg t.ocrCh t.ocrCl value hw)
    else (curTccrA, hw)
  { t with hw := hw }.resetTimerControl curTccrA curTccrB curTccrC

/-- `HardwareTimer::setCompareValueA`, with the default `inverting = false`
made explicit at the call sites. -/
def HardwareTimer.setCompareValueA (t : HardwareTimer) (value : Nat)
    (inverting : Bool) : HardwareTimer :=
  t.setCompareValue (TIMER_OCR_A % 256) value inverting

/-- `HardwareTimer::setCompareValueB`. -/
def HardwareTimer.setCompareValueB (t : HardwareTimer) (value : Nat)
    (inverting : Bool) : HardwareTimer :=
  t.setCompareValue (TIMER_OCR_B % 256) value inverting

/-- `HardwareTimer::setCompareValueC`. -/
def HardwareTimer.setCompareValueC (t : HardwareTimer) (value : Nat)
    (inverting : Bool) : HardwareTimer :=
  t.setCompareValue (TIMER_OCR_C % 256) value inverting

/-- The static objects `Timer0` and `Timer2` (8-bit, two channels), over the
registers of their own peripheral. -/
def Timer0 (hw : Mcu) : HardwareTimer :=
  HardwareTimer.new false 2
    (some .TCCRnA) (some .TCCRnB) none
    none (some .TCNTnL)
    none (some .OCRnAL)
    none (some .OCRnBL)
    none none
    none none
    (some .TIMSKn) (some .TIFRn) hw

/-- The static objects `Timer1`, `Timer3`, `Timer4` and `Timer5` (16-bit,
three channels), over the registers of their own peripheral. -/
def Timer1 (hw : Mcu) : HardwareTimer :=
  HardwareTimer.new true 3
    (some .TCCRnA) (some .TCCRnB) (some .TCCRnC)
    (some .TCNTnH) (some .TCNTnL)
    (some .OCRnAH) (some .OCRnAL)
    (some .OCRnBH) (some .OCRnBL)
    (some .OCRnCH) (some .OCRnCL)
    (some .ICRnH) (some .ICRnL)
    (some .TIMSKn) (some .TIFRn) hw

/-- The objects `Timer0` and `Timer2` are built alike. -/
def Timer2 (hw : Mcu) : HardwareTimer := Timer0 hw

/-- The objects `Timer1` and `Timer3` are built alike. -/
def Timer3 (hw : Mcu) : HardwareTimer := Timer1 hw

/-- The objects `Timer1` and `Timer4` are built alike. -/
def Timer4 (hw : Mcu) : HardwareTimer := Timer1 hw

/-- The objects `Timer1` and `Timer5` are built alike. -/
def Timer5 (hw : Mcu) : HardwareTimer := Timer1 hw

/-! ## HardwareServo.h, HardwareServo.cpp -/

/-- The operating modes reported by `HardwareTimer::getMode`.  The
enumeration is used by `__setupServoTimer` and declared nowhere in the
sources. -/
inductive TimerMode
  | TIMER_MODE_NORMAL
  | TIMER_MODE_FASTPWM
deriving DecidableEq

/-- The member functions `getMode`, `getPrescale` and `getTop` of
`HardwareTimer`: `__setupServoTimer` calls them, and `HardwareTimer.h`
declares none of them.  They are parameters of the model. -/
structure TimerQueries where
  getMode : HardwareTimer → TimerMode
  getPrescale : HardwareTimer → TimerPrescaler
  getTop : HardwareTimer → Nat

def HWSRVO_DEFAULT_MIN_US : Nat := 1000
def HWSRVO_DEFAULT_MAX_US : Nat := 2000

/-- The enumeration `ServoPin`, with every output compare register of the
ATmega2560 defined. -/
inductive ServoPin
  | OC1A | OC1B | OC1C
  | OC3A | OC3B | OC3C
  | OC4A | OC4B | OC4C
  | OC5A | OC5B | OC5C
deriving DecidableEq

/-- The names of the static timer objects a servo can point to. -/
inductive TimerName
  | Timer1 | Timer3 | Timer4 | Timer5
deriving DecidableEq

/-- The function `__ticksPerMicroS`: the float quotient
`(float)(ticksIn20ms) / 20000.0F`. -/
def __ticksPerMicroS (ticksIn20ms : Nat) : ℚ := f32 ((ticksIn20ms : ℚ) / 20000)

/-- The function `__setupServoTimer`, for the clock frequency `F_CPU` (an
`unsigned long` constant of the build).  The argument `none` is
`NULL_HWTIMER`.  The result is the timer afterwards and the returned tick
count. -/
def __setupServoTimer (q : TimerQueries) (F_CPU : Nat) (t : Option HardwareTimer) :
    Option HardwareTimer × Nat :=
  match t with
  | none => (none, 0)
  | some t =>
    let prescale := TIMER_PRESCALE_8
    let tmpTop := (F_CPU / (50 * 8)) % 2 ^ 32
    let (prescale, tmpTop) :=
      if tmpTop > 0xFFFF then
        (TIMER_PRESCALE_64, (F_CPU / (50 * 64)) % 2 ^ 32)
      else if tmpTop < 20000 then
        (TIMER_PRESCALE_NONE, (F_CPU / 50) % 2 ^ 32)
      else (prescale, tmpTop)
    let resultTicks := (tmpTop &&& 0xFFFF) % 65536
    if q.getMode t ≠ TimerMode.TIMER_MODE_FASTPWM ∨
        q.getPrescale t ≠ prescale ∨
        q.getTop t ≠ (resultTicks + 65535) % 65536 then
      (some ((t.setPrescaler prescale).setFastPwmMode ((resultTicks + 65535) % 65536)),
        resultTicks)
    else (some t, resultTicks)

/-- The function `__setPinModeOutput`. -/
def __setPinModeOutput (pin : ServoPin) (hw : Mcu) : Mcu :=
  match pin with
  | .OC1A => hw.sbi .DDRB PB5
  | .OC1B => hw.sbi .DDRB PB6
  | .OC1C => hw.sbi .DDRB PB7
  | .OC3A => hw.sbi .DDRE PE3
  | .OC3B => hw.sbi .DDRE PE4
  | .OC3C => hw.sbi .DDRE PE5
  | .OC4A => hw.sbi .DDRH PH3
  | .OC4B => hw.sbi .DDRH PH4
  | .OC4C => hw.sbi .DDRH PH5
  | .OC5A => hw.sbi .DDRL PL3
  | .OC5B => hw.sbi .DDRL PL4
  | .OC5C => hw.sbi .DDRL PL5

/-- The class `HardwareServo`.  The field `timer` names the static timer
object pointed to (`none` is `NULL_HWTIMER`); the state of that object is
passed to and returned by every operation. -/
structure HardwareServo where
  timer : Option TimerName
  timerTicks1us : ℚ
  microsPerDegree : Nat
  microsPerPercent : Nat
  outputPin : ServoPin
  minPulseWidthUs : Nat
  maxPulseWidthUs : Nat
  midPulseWidthUs : Nat
  pulseWidthUs : Nat

/-- The switch of the constructor that sets `timer` from the output pin. -/
def timerOfPin (outputPin : ServoPin) : Option TimerName :=
  match outputPin with
  | .OC1A | .OC1B | .OC1C => some .Timer1
  | .OC3A | .OC3B | .OC3C => some .Timer3
  | .OC4A | .OC4B | .OC4C => some .Timer4
  | .OC5A | .OC5B | .OC5C => some .Timer5

/-- The constructor `HardwareServo::HardwareServo`.  The argument `t` is the
state of the timer object the output pin selects; the result is the new servo
and that timer afterwards. -/
def HardwareServo.new (q : TimerQueries) (F_CPU : Nat) (outputPin : ServoPin)
    (minUs maxUs initUs : Nat) (t : HardwareTimer) : HardwareServo × HardwareTimer :=
  let (minPulseWidthUs, maxPulseWidthUs) :=
    if minUs ≥ maxUs then (HWSRVO_DEFAULT_MIN_US, HWSRVO_DEFAULT_MAX_US)
    else (minUs, maxUs)
  let midPulseWidthUs :=
    toUint16 (round (f32
      ((((minPulseWidthUs + maxPulseWidthUs) % 65536 : Nat) : ℚ) / 2)))
  let microsPerDegree :=
    toUint16 (round (f32
      ((((maxPulseWidthUs + 65536 - minPulseWidthUs) % 65536 : Nat) : ℚ) / 180)))
  let microsPerPercent :=
    toUint16 (round (f32
      ((((maxPulseWidthUs + 65536 - minPulseWidthUs) % 65536 : Nat) : ℚ) / 100)))
  let timer := timerOfPin outputPin
  let t := { t with hw := __setPinModeOutput outputPin t.hw }
  let r := __setupServoTimer q F_CPU (timer.map fun _ => t)
  let ticksPer20ms := r.2
  let timerTicks1us := __ticksPerMicroS ticksPer20ms
  ({ timer := timer, timerTicks1us := timerTicks1us,
     microsPerDegree := microsPerDegree, microsPerPercent := microsPerPercent,
     outputPin := outputPin,
     minPulseWidthUs := minPulseWidthUs, maxPulseWidthUs := maxPulseWidthUs,
     midPulseWidthUs := midPulseWidthUs, pulseWidthUs := initUs },
   r.1.getD t)

/-- `HardwareServo::setPulseWidth`, on the state `t` of the timer object
`timer` points to. -/
def HardwareServo.setPulseWidth (s : HardwareServo) (pulseWidthUs : Nat)
    (t : HardwareTimer) : HardwareServo × HardwareTimer :=
  let pw :=
    if pulseWidthUs < s.minPulseWidthUs then s.minPulseWidthUs
    else if pulseWidthUs > s.maxPulseWidthUs then s.maxPulseWidthUs
    else pulseWidthUs
  let s := { s with pulseWidthUs := pw }
  let pulseTicks := f32 (s.timerTicks1us * (pw : ℚ))
  let ocValue := toUint16 (round pulseTicks)
  match s.outputPin with
  | .OC1A => (s, t.setCompareValueA ocValue false)
  | .OC1B => (s, t.setCompareValueB ocValue false)
  | .OC1C => (s, t.setCompareValueC ocValue false)
  | .OC3A => (s, t.setCompareValueA ocValue false)
  | .OC3B => (s, t.setCompareValueB ocValue false)
  | .OC3C => (s, t.setCompareValueC ocValue false)
  | .OC4A => (s, t.setCompareValueA ocValue false)
  | .OC4B => (s, t.setCompareValueB ocValue false)
  | .OC4C => (s, t.setCompareValueC ocValue false)
  | .OC5A => (s, t.setCompareValueA ocValue false)
  | .OC5B => (s, t.setCompareValueB ocValue false)
  | .OC5C => (s, t.setCompareValueC ocValue false)

/-- `HardwareServo::setAngle`. -/
def HardwareServo.setAngle (s : HardwareServo) (degrees : ℚ) (t : HardwareTimer) :
    HardwareServo × HardwareTimer :=
  if degrees < -90 then
    s.setPulseWidth s.minPulseWidthUs t
  else if degrees > 90 then
    s.setPulseWidth s.maxPulseWidthUs t
  else
    let offset := f32 (degrees * (s.microsPerDegree : ℚ))
    let pw := (s.midPulseWidthUs + toUint16 (round offset)) % 65536
    s.setPulseWidth pw t

/-- `HardwareServo::setPosition`. -/
def HardwareServo.setPosition (s : HardwareServo) (percentage : ℚ)
    (t : HardwareTimer) : HardwareServo × HardwareTimer :=
  if percentage < 0 then
    s.setPulseWidth s.minPulseWidthUs t
  else if percentage > 100 then
    s.setPulseWidth s.maxPulseWidthUs t
  else
    let width := f32 (percentage * (s.microsPerPercent : ℚ))
    let pw := toUint16 (round width)
    s.setPulseWidth pw t

/-! ## Notions used to state the properties -/

/-- Rounding to the nearest integer, a tie going away from zero. -/
def roundHalfAway (x : ℚ) : ℤ :=
  if 0 ≤ x then ⌊x + 1 / 2⌋ else ⌈x - 1 / 2⌉

/-- The value `x` clamped to the interval from `lo` to `hi`. -/
def clampTo (lo hi x : Nat) : Nat := max lo (min hi x)

/-- The output compare channels of a timer. -/
inductive Channel
  | A | B | C
deriving DecidableEq

/-- The channel letter of an output pin: `OCnA`, `OCnB`, `OCnC`. -/
def ServoPin.channel : ServoPin → Channel
  | .OC1A | .OC3A | .OC4A | .OC5A => .A
  | .OC1B | .OC3B | .OC4B | .OC5B => .B
  | .OC1C | .OC3C | .OC4C | .OC5C => .C

/-- The bit of a channel in the mask of `setCompareValue`. -/
def Channel.mask : Channel → Nat
  | .A => TIMER_OCR_A
  | .B => TIMER_OCR_B
  | .C => TIMER_OCR_C

/-- The high-byte register of a channel's compare register. -/
def Channel.regH : Channel → Reg
  | .A => .OCRnAH
  | .B => .OCRnBH
  | .C => .OCRnCH

/-- The position in `TCCRnA` of the lower compare-output-mode bit of a
channel. -/
def Channel.comShift : Channel → Nat
  | .A => COM0A0
  | .B => COM0B0
  | .C => COM1C0

/-- The low-byte register of a channel's compare register. -/
def Channel.regL : Channel → Reg
  | .A => .OCRnAL
  | .B => .OCRnBL
  | .C => .OCRnCL

/-- Whether a register is one of the output compare registers. -/
def Reg.isCompare : Reg → Bool
  | .OCRnAH | .OCRnAL | .OCRnBH | .OCRnBL | .OCRnCH | .OCRnCL => true
  | _ => false

/-- The 16-bit value held by a channel's compare register pair. -/
def Mcu.compare (hw : Mcu) (c : Channel) : Nat :=
  256 * hw.load (some c.regH) + hw.load (some c.regL)

/-- A predefined 16-bit timer object in an arbitrary state: staged prescaler
`p`, machine state `hw`. -/
def timer16 (p : TimerPrescaler) (hw : Mcu) : HardwareTimer :=
  { Timer1 hw with prescale := p }

/-- A predefined 8-bit timer object in an arbitrary state. -/
def timer8 (p : TimerPrescaler) (hw : Mcu) : HardwareTimer :=
  { Timer0 hw with prescale := p }

/-- The machine after reset: every register zero, interrupts enabled, no
store made yet. -/
def Mcu.reset : Mcu := { mem := fun _ => 0, SREG := 0x80, trace := [] }

/-- The timer after `__setupServoTimer` has run, when it selected `prescale`
and the TOP value `top`: reprogrammed unless the three queries already report
this configuration. -/
def servoTimerAfter (q : TimerQueries) (t : HardwareTimer) (prescale : TimerPrescaler)
    (top : Nat) : HardwareTimer :=
  if q.getMode t ≠ TimerMode.TIMER_MODE_FASTPWM ∨ q.getPrescale t ≠ prescale ∨
      q.getTop t ≠ top then
    (t.setPrescaler prescale).setFastPwmMode top
  else t

/-- Modelled from the spec: the state accessors `getMode`, `getPrescale` and
`getTop` of the timer abstraction, which `__setupServoTimer` calls and the
sources do not define.  They read the current mode and TOP back from the
registers and return the staged prescaler.  The properties of
`__setupServoTimer` that do not depend on the accessors are stated for every
`TimerQueries`; the repeated set-up, which does, is stated for this model. -/
def registerQueries : TimerQueries where
  getMode := fun t =>
    if t.is16Bit then
      if t.hw.load t.tccrA % 4 = 2 ∧ t.hw.load t.tccrB / 8 % 4 = 3 then
        TimerMode.TIMER_MODE_FASTPWM
      else TimerMode.TIMER_MODE_NORMAL
    else
      if t.hw.load t.tccrA % 4 = 3 ∧ t.hw.load t.tccrB / 8 % 2 = 0 then
        TimerMode.TIMER_MODE_FASTPWM
      else TimerMode.TIMER_MODE_NORMAL
  getPrescale := fun t => t.prescale
  getTop := fun t =>
    if t.is16Bit then 256 * t.hw.load t.icrh + t.hw.load t.icrl else 0xFF

/-- The servo of the example scenario: pin `OC1A`, bounds 1000 and 2000,
2 ticks per microsecond. -/
def exampleServo : HardwareServo :=
  { timer := some .Timer1, timerTicks1us := 2,
    microsPerDegree := 6, microsPerPercent := 10,
    outputPin := .OC1A,
    minPulseWidthUs := 1000, maxPulseWidthUs := 2000,
    midPulseWidthUs := 1500, pulseWidthUs := 1000 }

/-- The servo `HardwareServo(OC1A, 0, 20000, 0)` of a build for a 14.7456 MHz
clock: 36864 ticks in 20 ms, the middle 10000, 111 microseconds per degree
and 200 per percent. -/
def slowClockServo : HardwareServo :=
  { timer := some .Timer1, timerTicks1us := __ticksPerMicroS 36864,
    microsPerDegree := 111, microsPerPercent := 200,
    outputPin := .OC1A,
    minPulseWidthUs := 0, maxPulseWidthUs := 20000,
    midPulseWidthUs := 10000, pulseWidthUs := 0 }

/-- A predefined 16-bit timer on which, from the reset state, channel A was
set with `setCompareValueA(1000, true)`, the inverting output. -/
def invertingTimer : HardwareTimer :=
  (timer16 .TIMER_PRESCALE_8 Mcu.reset).setCompareValueA 1000 true

/-- The clock-select bits `CSn2:0` of a prescaler setting, as a number: 1 for
no prescaling, 2 for /8, 3 for /64, 4 for /256, 5 for /1024. -/
def clockSelectBits : TimerPrescaler → Nat
  | .TIMER_PRESCALE_NONE => 1
  | .TIMER_PRESCALE_8 => 2
  | .TIMER_PRESCALE_64 => 3
  | .TIMER_PRESCALE_256 => 4
  | .TIMER_PRESCALE_1024 => 5

/-- The value `setCompareValue` composes for `TCCRnA` from the value `cur`
read from it, when the channels A, B and C are taken or not: the mode bits
are or-ed in at the position of each channel taken. -/
def composedTccrA (cur : Nat) (takeA takeB takeC inverting : Bool) : Nat :=
  let comVal := if inverting then 3 else 2
  let cur := if takeA then (cur ||| comVal <<< COM0A0) % 256 else cur
  let cur := if takeB then (cur ||| comVal <<< COM0B0) % 256 else cur
  if takeC then (cur ||| comVal <<< COM1C0) % 256 else cur

/-- The machine state after the compare-register stores `setCompareValue` makes
on a predefined 16-bit timer, when the channels A, B and C are taken or not. -/
def compareStores16 (takeA takeB takeC : Bool) (value : Nat) (hw : Mcu) : Mcu :=
  let hw := if takeA then __setWideReg (some .OCRnAH) (some .OCRnAL) value hw else hw
  let hw := if takeB then __setWideReg (some .OCRnBH) (some .OCRnBL) value hw else hw
  if takeC then __setWideReg (some .OCRnCH) (some .OCRnCL) value hw else hw

/-- The machine state after the compare-register stores `setCompareValue` makes
on a predefined 8-bit timer, when the channels A and B are taken or not. -/
def compareStores8 (takeA takeB : Bool) (value : Nat) (hw : Mcu) : Mcu :=
  let hw := if takeA then __setWideReg none (some .OCRnAL) value hw else hw
  if takeB then __setWideReg none (some .OCRnBL) value hw else hw

/-! ## Basic facts -/

theorem toLong_eq (x : ℚ) : toLong x = if 0 ≤ x then ⌊x⌋ else ⌈x⌉ := by
  unfold toLong
  split_ifs with h
  · have hn : 0 ≤ x.num := Rat.num_nonneg.mpr h
    rw [Int.tdiv_eq_ediv hn (by positivity)]
    exact (Rat.floor_def' x).symm
  · have hx : x < 0 := lt_of_not_ge h
    have hn : 0 ≤ (-x).num := Rat.num_nonneg.mpr (by linarith)
    have h1 : Int.tdiv x.num x.den = -Int.tdiv (-x).num (-x).den := by
      rw [Rat.neg_num, Rat.neg_den, Int.neg_tdiv, neg_neg]
    rw [h1, Int.tdiv_eq_ediv hn (by positivity), ← Rat.floor_def' (-x)]
    show -⌊-x⌋ = ⌈x⌉
    rw [Int.floor_neg, neg_neg]

/-- Rounding half away from zero is the macro `round` with an exact sum. -/
theorem roundHalfAway_eq (x : ℚ) :
    roundHalfAway x = if 0 ≤ x then toLong (x + 1 / 2) else toLong (x - 1 / 2) := by
  unfold roundHalfAway
  rw [toLong_eq, toLong_eq]
  by_cases h : 0 ≤ x
  · have h2 : 0 ≤ x + 1 / 2 := by linarith
    simp only [h, h2, if_true]
  · have hx : x < 0 := lt_of_not_ge h
    have h2 : ¬ 0 ≤ x - 1 / 2 := by linarith
    simp only [h, h2, if_false]

theorem log2Fuel_spec (fuel n : Nat) (hn : n ≤ fuel) (h0 : n ≠ 0) :
    2 ^ log2Fuel fuel n ≤ n ∧ n < 2 ^ (log2Fuel fuel n + 1) := by
  induction fuel generalizing n with
  | zero => omega
  | succ f ih =>
    unfold log2Fuel
    split_ifs with h
    · have h1 := ih (n / 2) (by omega) (by omega)
      rw [pow_succ 2 (log2Fuel f (n / 2)), pow_succ 2 (log2Fuel f (n / 2) + 1),
        pow_succ 2 (log2Fuel f (n / 2))]
      omega
    · have : n = 1 := by omega
      subst this; simp

/-- The function `natLog2` is the binary logarithm rounded down. -/
theorem natLog2_spec (n : Nat) (h0 : n ≠ 0) :
    2 ^ natLog2 n ≤ n ∧ n < 2 ^ (natLog2 n + 1) :=
  log2Fuel_spec n n le_rfl h0

theorem pow2_eq (z : ℤ) : pow2 z = (2 : ℚ) ^ z := by
  unfold pow2
  split_ifs with h
  · obtain ⟨n, rfl⟩ := Int.eq_ofNat_of_zero_le h
    simp
  · push_neg at h
    obtain ⟨n, rfl⟩ : ∃ n : ℕ, z = -(n : ℤ) := ⟨(-z).toNat, by omega⟩
    simp

theorem pow2_pos (z : ℤ) : 0 < pow2 z := by
  rw [pow2_eq]; positivity

theorem ilog2_le (p q : Nat) (hp : 0 < p) (hq : 0 < q) :
    (2 : ℚ) ^ ilog2 p q ≤ (p : ℚ) / q := by
  have hq' : (0 : ℚ) < q := by exact_mod_cast hq
  have hp' : (0 : ℚ) < p := by exact_mod_cast hp
  by_cases h : q ≤ p
  · have h1 := (natLog2_spec (p / q) (by
      have := Nat.div_pos h hq; omega)).1
    simp only [ilog2, h, if_true]
    rw [zpow_natCast, le_div_iff₀ hq']
    have h3 : 2 ^ natLog2 (p / q) * q ≤ p :=
      le_trans (Nat.mul_le_mul_right q h1) (Nat.div_mul_le_self p q)
    exact_mod_cast h3
  · by_cases h2 : q ≤ p * 2 ^ natLog2 (q / p)
    · simp only [ilog2, h, h2, if_true, if_false]
      rw [zpow_neg, zpow_natCast, le_div_iff₀ hq', inv_mul_le_iff₀ (by positivity)]
      rw [mul_comm]
      exact_mod_cast h2
    · push_neg at h
      have h1 := (natLog2_spec (q / p) (by
        have := Nat.div_pos h.le hp; omega)).2
      have h3 : q < p * 2 ^ (natLog2 (q / p) + 1) := by
        rw [Nat.div_lt_iff_lt_mul hp] at h1
        rw [mul_comm]; exact h1
      simp only [ilog2, not_le.mpr h, h2, if_false]
      have : ((natLog2 (q / p) : ℤ) + 1) = ((natLog2 (q / p) + 1 : ℕ) : ℤ) := by push_cast; rfl
      rw [this, zpow_neg, zpow_natCast, le_div_iff₀ hq', inv_mul_le_iff₀ (by positivity)]
      rw [mul_comm]
      exact_mod_cast h3.le

theorem roundEven_error (q : ℚ) : |(roundEven q : ℚ) - q| ≤ 1 / 2 := by
  have hf : q.num / (q.den : ℤ) = ⌊q⌋ := (Rat.floor_def' q).symm
  unfold roundEven
  simp only [hf]
  have h1 := Int.floor_le q
  have h2 := Int.lt_floor_add_one q
  rw [abs_le]
  split_ifs with a b c <;> push_cast <;> constructor <;> linarith

theorem roundEven_nonneg (q : ℚ) (h : 0 ≤ q) : 0 ≤ roundEven q := by
  have hf : q.num / (q.den : ℤ) = ⌊q⌋ := (Rat.floor_def' q).symm
  unfold roundEven
  simp only [hf]
  have h1 : 0 ≤ ⌊q⌋ := Int.floor_nonneg.mpr h
  split_ifs <;> omega

/-- Rounding to binary32 keeps a value that is not negative so. -/
theorem f32_nonneg (x : ℚ) (h : 0 ≤ x) : 0 ≤ f32 x := by
  unfold f32
  split_ifs with h0
  · exact le_rfl
  · have hu := pow2_pos (max (ilog2 x.num.natAbs x.den) (-126) - 23)
    have := roundEven_nonneg (x / pow2 (max (ilog2 x.num.natAbs x.den) (-126) - 23))
      (div_nonneg h hu.le)
    have h3 : (0 : ℚ) ≤
        (roundEven (x / pow2 (max (ilog2 x.num.natAbs x.den) (-126) - 23)) : ℚ) := by
      exact_mod_cast this
    exact mul_nonneg h3 hu.le

/-- Rounding to binary32 moves a value below `2 ^ (k + 1)` in magnitude by at
most half the spacing `2 ^ (k - 23)` of the binary32 values there. -/
theorem f32_error (x : ℚ) (k : ℤ) (hk : -126 ≤ k) (hx : |x| < (2 : ℚ) ^ (k + 1)) :
    |f32 x - x| ≤ (2 : ℚ) ^ (k - 24) := by
  unfold f32
  split_ifs with h0
  · subst h0; simp; positivity
  · have hnum : 0 < x.num.natAbs := Int.natAbs_pos.mpr (Rat.num_ne_zero.mpr h0)
    have hlog := ilog2_le x.num.natAbs x.den hnum x.den_pos
    have habs : ((x.num.natAbs : ℚ)) / x.den = |x| := by
      rw [Rat.abs_def, Rat.divInt_eq_div]; push_cast; simp [Nat.cast_natAbs]
    rw [habs] at hlog
    have he : ilog2 x.num.natAbs x.den ≤ k := by
      have := lt_of_le_of_lt hlog hx
      have := (zpow_lt_zpow_iff_right₀ (by norm_num : (1 : ℚ) < 2)).mp this
      omega
    have he2 : max (ilog2 x.num.natAbs x.den) (-126) ≤ k := max_le he hk
    generalize max (ilog2 x.num.natAbs x.den) (-126) = e at he2
    have hu : 0 < pow2 (e - 23) := pow2_pos _
    have hule : pow2 (e - 23) ≤ (2 : ℚ) ^ (k - 23) := by
      rw [pow2_eq]
      exact zpow_le_zpow_right₀ (by norm_num) (by omega)
    have hr := roundEven_error (x / pow2 (e - 23))
    have key : (roundEven (x / pow2 (e - 23)) : ℚ) * pow2 (e - 23) - x
        = ((roundEven (x / pow2 (e - 23)) : ℚ) - x / pow2 (e - 23)) * pow2 (e - 23) := by
      field_simp
    show |(roundEven (x / pow2 (e - 23)) : ℚ) * pow2 (e - 23) - x| ≤ _
    rw [key, abs_mul, abs_of_pos hu]
    have h24 : (2 : ℚ) ^ (k - 24) = 1 / 2 * (2 : ℚ) ^ (k - 23) := by
      have : k - 23 = (k - 24) + 1 := by ring
      rw [this, zpow_add_one₀ (by norm_num)]; ring
    rw [h24]
    exact mul_le_mul hr hule hu.le (by norm_num)

/-- Below 4 in magnitude the rounding to binary32 moves a value by at most
`2 ^ (-23)`. -/
theorem f32_error4 (x : ℚ) (hx : |x| < 4) : |f32 x - x| ≤ 1 / 2 ^ 23 := by
  have h := f32_error x 1 (by norm_num) (by norm_num; exact hx)
  norm_num at h ⊢
  exact h

/-- Below `2 ^ 16` in magnitude the rounding to binary32 moves a value by at
most `2 ^ (-9)`. -/
theorem f32_error16 (x : ℚ) (hx : |x| < 65536) : |f32 x - x| ≤ 1 / 2 ^ 9 := by
  have h := f32_error x 15 (by norm_num) (by norm_num; exact hx)
  norm_num at h ⊢
  exact h

/-- The rounding `f32` at some values: 0.1 and 1 / 3 go to the nearest binary32
value, an integer above `2 ^ 24` to the nearest even multiple of the spacing,
a value with few significant bits to itself, and half the smallest subnormal
number to zero. -/
theorem f32_examples :
    f32 (1 / 10) = 13421773 / 134217728 ∧
    f32 (1 / 3) = 11184811 / 33554432 ∧
    f32 16777217 = 16777216 ∧
    f32 16777219 = 16777220 ∧
    f32 (-5 / 2) = -5 / 2 ∧
    f32 40000 = 40000 ∧
    f32 (3 / 2 ^ 150) = 1 / 2 ^ 148 ∧
    f32 (1 / 2 ^ 150) = 0 := by
  decide!

theorem toUint16_lt (z : ℤ) : toUint16 z < 65536 := by
  unfold toUint16
  omega

theorem toUint16_natCast (n : Nat) (h : n < 65536) : toUint16 (n : ℤ) = n := by
  unfold toUint16
  omega

theorem setPulseWidth_fst (s : HardwareServo) (pulseWidthUs : Nat) (t : HardwareTimer) :
    (s.setPulseWidth pulseWidthUs t).1 =
      { s with pulseWidthUs :=
          if pulseWidthUs < s.minPulseWidthUs then s.minPulseWidthUs
          else if pulseWidthUs > s.maxPulseWidthUs then s.maxPulseWidthUs
          else pulseWidthUs } := by
  unfold HardwareServo.setPulseWidth
  cases h : s.outputPin <;> simp [h]

/-! ## Claims -/

/-- C1: for a servo with `min < max`, `setPulseWidth` stores `min` for a
request below `min`, `max` for a request above `max`, and the request itself
otherwise. -/
theorem C1_setPulseWidth_stores_clamped (s : HardwareServo) (t : HardwareTimer)
    (pulseWidthUs : Nat) (hmm : s.minPulseWidthUs < s.maxPulseWidthUs) :
    (pulseWidthUs < s.minPulseWidthUs →
        (s.setPulseWidth pulseWidthUs t).1.pulseWidthUs = s.minPulseWidthUs) ∧
    (pulseWidthUs > s.maxPulseWidthUs →
        (s.setPulseWidth pulseWidthUs t).1.pulseWidthUs = s.maxPulseWidthUs) ∧
    (s.minPulseWidthUs ≤ pulseWidthUs → pulseWidthUs ≤ s.maxPulseWidthUs →
        (s.setPulseWidth pulseWidthUs t).1.pulseWidthUs = pulseWidthUs) := by
  rw [setPulseWidth_fst]
  refine ⟨fun h => ?_, fun h => ?_, fun h1 h2 => ?_⟩
  · simp [h]
  · have h1 : ¬ pulseWidthUs < s.minPulseWidthUs := by omega
    simp [h1, h]
  · have h3 : ¬ pulseWidthUs < s.minPulseWidthUs := by omega
    have h4 : ¬ pulseWidthUs > s.maxPulseWidthUs := by omega
    simp [h3, h4]

/-- C1 at the example servo: a request of 2500 stores the maximum 2000. -/
theorem C1_setPulseWidth_stores_clamped_witness :
    (exampleServo.setPulseWidth 2500 (timer16 .TIMER_PRESCALE_8 Mcu.reset)).1.pulseWidthUs
      = 2000 :=
  (C1_setPulseWidth_stores_clamped exampleServo (timer16 .TIMER_PRESCALE_8 Mcu.reset) 2500
    (by decide)).2.1 (by decide)

theorem highByte_eq (v : Nat) (h : v < 65536) : highByte v = v / 256 := by
  unfold highByte
  rw [Nat.shiftRight_eq_div_pow]
  omega

theorem lowByte_eq (v : Nat) : lowByte v = v % 256 := by
  unfold lowByte
  have h := Nat.and_pow_two_sub_one_eq_mod v 8
  norm_num at h
  rw [h]
  omega

theorem clampTo_eq (lo hi x : Nat) (h : lo ≤ hi) :
    clampTo lo hi x = if x < lo then lo else if x > hi then hi else x := by
  unfold clampTo
  split_ifs <;> omega

theorem and_lits : (1 &&& 1 : Nat) = 1 ∧ (1 &&& 2 : Nat) = 0 ∧ (1 &&& 4 : Nat) = 0 ∧
    (2 &&& 1 : Nat) = 0 ∧ (2 &&& 2 : Nat) = 2 ∧ (2 &&& 4 : Nat) = 0 ∧
    (4 &&& 1 : Nat) = 0 ∧ (4 &&& 2 : Nat) = 0 ∧ (4 &&& 4 : Nat) = 4 := by decide

theorem testBit_127_7 : Nat.testBit 127 7 = false := by decide

/-- The machine state after `setCompareValue` for one channel of a predefined
16-bit timer. -/
theorem setCompareValue_timer16 (p : TimerPrescaler) (hw : Mcu) (c : Channel)
    (v : Nat) (inv : Bool) (hv : v < 65536) :
    ((timer16 p hw).setCompareValue c.mask v inv).hw =
      { mem := fun x =>
          if x = .TCCRnB then hw.mem .TCCRnB % 256
          else if x = .TCCRnC then hw.mem .TCCRnC % 256
          else if x = .TCCRnA then
            (hw.mem .TCCRnA % 256 ||| ((if inv then 3 else 2) <<< c.comShift)) % 256
          else if x = c.regL then v % 256
          else if x = c.regH then v / 256
          else hw.mem x
        SREG := hw.SREG
        trace := hw.trace ++
          [⟨c.regH, v / 256, hw.SREG.testBit 7⟩, ⟨c.regL, v % 256, hw.SREG.testBit 7⟩,
           ⟨.TCCRnA,
             (hw.mem .TCCRnA % 256 ||| ((if inv then 3 else 2) <<< c.comShift)) % 256, false⟩,
           ⟨.TCCRnC, hw.mem .TCCRnC % 256, false⟩,
           ⟨.TCCRnB, hw.mem .TCCRnB % 256, false⟩] } := by
  have h256 : v / 256 % 256 = v / 256 := by omega
  cases c <;> cases inv <;>
  simp [Channel.mask, Channel.regH, Channel.regL, Channel.comShift,
    HardwareTimer.setCompareValue, timer16, Timer1,
    HardwareTimer.new, TIMER_OCR_A, TIMER_OCR_B, TIMER_OCR_C, bit, bitSet,
    HardwareTimer.resetTimerControl, __setWideReg, Mcu.store, Mcu.cli, Mcu.load,
    COM0A0, COM0B0, COM1C0, highByte_eq v hv, lowByte_eq, and_lits, testBit_127_7, h256]

theorem setPulseWidth_snd (s : HardwareServo) (pulseWidthUs : Nat) (t : HardwareTimer) :
    (s.setPulseWidth pulseWidthUs t).2 =
      t.setCompareValue s.outputPin.channel.mask
        (toUint16 (round (f32 (s.timerTicks1us *
          ((if pulseWidthUs < s.minPulseWidthUs then s.minPulseWidthUs
            else if pulseWidthUs > s.maxPulseWidthUs then s.maxPulseWidthUs
            else pulseWidthUs : Nat) : ℚ))))) false := by
  unfold HardwareServo.setPulseWidth
  cases h : s.outputPin <;>
  simp [h, ServoPin.channel, Channel.mask, HardwareTimer.setCompareValueA,
    HardwareTimer.setCompareValueB, HardwareTimer.setCompareValueC,
    TIMER_OCR_A, TIMER_OCR_B, TIMER_OCR_C, bit]

/-- C2 (counterexample): for the servo `HardwareServo(OC1A, 0, 20000, 0)` of a
14.7456 MHz build, whose ticks per microsecond are the binary32 value
7730941 / 4194304, on a timer whose channel A was last set inverting,
`setPulseWidth(17956)` writes 33097 to the compare register of channel A,
where the product of the ticks per microsecond and the width rounded half
away from zero is 33096, and it leaves the compare-output-mode bits of the
channel at 0b11, the inverting output, not at 0b10. -/
theorem C2_written_value_and_output_mode_differ :
    slowClockServo.timerTicks1us = 7730941 / 4194304 ∧
    (slowClockServo.setPulseWidth 17956 invertingTimer).2.hw.compare .A = 33097 ∧
    toUint16 (roundHalfAway (slowClockServo.timerTicks1us *
      ((clampTo slowClockServo.minPulseWidthUs slowClockServo.maxPulseWidthUs 17956 : Nat)
        : ℚ))) = 33096 ∧
    ((slowClockServo.setPulseWidth 17956 invertingTimer).2.hw.mem .TCCRnA >>> COM0A0) % 4
      = 3 ∧
    ¬ ((slowClockServo.setPulseWidth 17956 invertingTimer).2.hw.compare .A =
        toUint16 (roundHalfAway (slowClockServo.timerTicks1us *
          ((clampTo slowClockServo.minPulseWidthUs slowClockServo.maxPulseWidthUs 17956
            : Nat) : ℚ))) ∧
      ((slowClockServo.setPulseWidth 17956 invertingTimer).2.hw.mem .TCCRnA >>> COM0A0) % 4
        = 2) := by
  have h1 : (slowClockServo.setPulseWidth 17956 invertingTimer).2.hw.compare .A = 33097 := by
    decide!
  have h2 : toUint16 (roundHalfAway (slowClockServo.timerTicks1us *
      ((clampTo slowClockServo.minPulseWidthUs slowClockServo.maxPulseWidthUs 17956 : Nat)
        : ℚ))) = 33096 := by
    rw [roundHalfAway_eq]
    decide!
  refine ⟨by decide!, h1, h2, by decide!, ?_⟩
  rw [h1, h2]
  decide

/-- C2 (amended): on a predefined 16-bit timer in any state, `setPulseWidth`
stores the request clamped to the bounds and calls `setCompareValue` once, for
the channel named by the pin, with `inverting = false` and with the value the
macro `round` gives for the float product of `timerTicks1us` and the clamped
width, the product being rounded to binary32 first, reduced to 16 bits.  The
compare register of that channel then holds this value, the other compare
registers are unchanged, and the only stores to compare registers are the
high and the low byte of that channel.  With 2 ticks per microsecond a request
of 1500 within the bounds gives 3000. -/
theorem C2_setPulseWidth_writes_compare (s : HardwareServo) (p : TimerPrescaler)
    (hw : Mcu) (pulseWidthUs : Nat)
    (hmm : s.minPulseWidthUs < s.maxPulseWidthUs) :
    let pw := clampTo s.minPulseWidthUs s.maxPulseWidthUs pulseWidthUs
    let v := toUint16 (round (f32 (s.timerTicks1us * (pw : ℚ))))
    let c := s.outputPin.channel
    let r := s.setPulseWidth pulseWidthUs (timer16 p hw)
    r.1.pulseWidthUs = pw ∧
    r.2 = (timer16 p hw).setCompareValue c.mask v false ∧
    r.2.hw.compare c = v ∧
    (∀ reg : Reg, reg.isCompare = true → reg ≠ c.regH → reg ≠ c.regL →
      r.2.hw.mem reg = hw.mem reg) ∧
    (r.2.hw.trace.drop hw.trace.length).filter (fun w => w.reg.isCompare) =
      [⟨c.regH, v / 256, hw.SREG.testBit 7⟩, ⟨c.regL, v % 256, hw.SREG.testBit 7⟩] ∧
    (s.timerTicks1us = 2 → pulseWidthUs = 1500 →
      s.minPulseWidthUs ≤ 1500 → 1500 ≤ s.maxPulseWidthUs → v = 3000) := by
  intro pw v c r
  have hv : v < 65536 := toUint16_lt _
  have hpw : (if pulseWidthUs < s.minPulseWidthUs then s.minPulseWidthUs
      else if pulseWidthUs > s.maxPulseWidthUs then s.maxPulseWidthUs
      else pulseWidthUs) = pw := (clampTo_eq _ _ _ (Nat.le_of_lt hmm)).symm
  have hr2 : r.2 = (timer16 p hw).setCompareValue c.mask v false := by
    show (s.setPulseWidth pulseWidthUs (timer16 p hw)).2 = _
    rw [setPulseWidth_snd, hpw]
  have hhw := setCompareValue_timer16 p hw c v false hv
  rw [← hr2] at hhw
  refine ⟨?_, hr2, ?_, ?_, ?_, ?_⟩
  · show (s.setPulseWidth pulseWidthUs (timer16 p hw)).1.pulseWidthUs = pw
    rw [setPulseWidth_fst, hpw]
  · rw [hhw]
    cases c <;> simp [Mcu.compare, Mcu.load, Channel.regH, Channel.regL] <;> omega
  · intro reg h1 h2 h3
    rw [hhw]
    cases reg <;> simp_all [Reg.isCompare]
  · rw [hhw]
    cases c <;> simp [Reg.isCompare, Channel.regH, Channel.regL]
  · intro h2 h1500 hlo hhi
    have hc : pw = 1500 := by
      show clampTo s.minPulseWidthUs s.maxPulseWidthUs pulseWidthUs = 1500
      rw [clampTo_eq _ _ _ (Nat.le_of_lt hmm), h1500]
      have h3 : ¬ 1500 < s.minPulseWidthUs := by omega
      have h4 : ¬ 1500 > s.maxPulseWidthUs := by omega
      simp [h3, h4]
    show toUint16 (round (f32 (s.timerTicks1us * (pw : ℚ)))) = 3000
    rw [h2, hc]
    decide!

/-- C2 (amended) at the example servo: a request of 1500 leaves 3000 in the
compare register of channel A. -/
theorem C2_setPulseWidth_writes_compare_witness :
    (exampleServo.setPulseWidth 1500 (timer16 .TIMER_PRESCALE_8 Mcu.reset)).2.hw.compare .A
      = 3000 :=
  have h := C2_setPulseWidth_writes_compare exampleServo .TIMER_PRESCALE_8 Mcu.reset 1500
    (by decide)
  h.2.2.1.trans (h.2.2.2.2.2 rfl rfl (by decide) (by decide))

/-- The servo fields the constructor computes from its arguments. -/
theorem new_fields (q : TimerQueries) (F_CPU : Nat) (outputPin : ServoPin)
    (minUs maxUs initUs : Nat) (t : HardwareTimer) :
    let s := (HardwareServo.new q F_CPU outputPin minUs maxUs initUs t).1
    let lo := if minUs ≥ maxUs then HWSRVO_DEFAULT_MIN_US else minUs
    let hi := if minUs ≥ maxUs then HWSRVO_DEFAULT_MAX_US else maxUs
    s.minPulseWidthUs = lo ∧ s.maxPulseWidthUs = hi ∧
    s.midPulseWidthUs = toUint16 (round (f32 ((((lo + hi) % 65536 : Nat) : ℚ) / 2))) ∧
    s.microsPerDegree =
      toUint16 (round (f32 ((((hi + 65536 - lo) % 65536 : Nat) : ℚ) / 180))) ∧
    s.microsPerPercent =
      toUint16 (round (f32 ((((hi + 65536 - lo) % 65536 : Nat) : ℚ) / 100))) ∧
    s.pulseWidthUs = initUs ∧ s.outputPin = outputPin := by
  unfold HardwareServo.new
  by_cases h : minUs ≥ maxUs <;> simp [h]

/-- C3 (the code at the failing input): for a servo constructed with the
default bounds 1000 and 2000, `setPosition(100)` stores 1000, the minimum, not
the maximum 2000. -/
theorem C3_setPosition_100_stores_min (q : TimerQueries) (F_CPU : Nat)
    (outputPin : ServoPin) (initUs : Nat) (t t2 : HardwareTimer) :
    let s := (HardwareServo.new q F_CPU outputPin 1000 2000 initUs t).1
    s.minPulseWidthUs = 1000 ∧ s.maxPulseWidthUs = 2000 ∧ s.microsPerPercent = 10 ∧
    (s.setPosition 100 t2).1.pulseWidthUs = 1000 := by
  intro s
  obtain ⟨h1, h2, -, -, h5, -, -⟩ := new_fields q F_CPU outputPin 1000 2000 initUs t
  have hlo : s.minPulseWidthUs = 1000 := by rw [h1]; decide
  have hhi : s.maxPulseWidthUs = 2000 := by rw [h2]; decide
  have hpp : s.microsPerPercent = 10 := by rw [h5]; decide!
  refine ⟨hlo, hhi, hpp, ?_⟩
  unfold HardwareServo.setPosition
  have hw : toUint16 (round (f32 ((100 : ℚ) * ((10 : Nat) : ℚ)))) = 1000 := by decide!
  have c1 : ¬ ((100 : ℚ) < 0) := by norm_num
  have c2 : ¬ ((100 : ℚ) > 100) := by norm_num
  simp only [c1, c2, if_false, hpp, hw, setPulseWidth_fst, hlo, hhi]
  decide

/-- The pulse width `setAngle` stores for an angle within the domain. -/
theorem setAngle_stored (s : HardwareServo) (degrees : ℚ) (t : HardwareTimer)
    (h1 : -90 ≤ degrees) (h2 : degrees ≤ 90) :
    (s.setAngle degrees t).1.pulseWidthUs =
      let pw := (s.midPulseWidthUs +
        toUint16 (round (f32 (degrees * (s.microsPerDegree : ℚ))))) % 65536
      if pw < s.minPulseWidthUs then s.minPulseWidthUs
      else if pw > s.maxPulseWidthUs then s.maxPulseWidthUs
      else pw := by
  unfold HardwareServo.setAngle
  have c1 : ¬ (degrees < -90) := not_lt.mpr h1
  have c2 : ¬ (degrees > 90) := not_lt.mpr h2
  simp only [c1, c2, if_false, setPulseWidth_fst]

/-- C4 (the code at the failing input): for a servo constructed with the
bounds 500 and 2500 the constructor sets `microsPerDegree` to 11, and
`setAngle(-90)` stores 510, not the minimum 500, while `setAngle(90)` stores
2490, not the maximum 2500. -/
theorem C4_setAngle_extremes_miss_bounds (q : TimerQueries) (F_CPU : Nat)
    (outputPin : ServoPin) (initUs : Nat) (t t2 : HardwareTimer) :
    let s := (HardwareServo.new q F_CPU outputPin 500 2500 initUs t).1
    s.minPulseWidthUs = 500 ∧ s.maxPulseWidthUs = 2500 ∧
    s.midPulseWidthUs = 1500 ∧ s.microsPerDegree = 11 ∧
    (s.setAngle (-90) t2).1.pulseWidthUs = 510 ∧
    (s.setAngle 90 t2).1.pulseWidthUs = 2490 := by
  intro s
  obtain ⟨h1, h2, h3, h4, -, -, -⟩ := new_fields q F_CPU outputPin 500 2500 initUs t
  have hlo : s.minPulseWidthUs = 500 := by rw [h1]; decide
  have hhi : s.maxPulseWidthUs = 2500 := by rw [h2]; decide
  have hmid : s.midPulseWidthUs = 1500 := by rw [h3]; decide!
  have hpd : s.microsPerDegree = 11 := by rw [h4]; decide!
  refine ⟨hlo, hhi, hmid, hpd, ?_, ?_⟩
  · rw [setAngle_stored s (-90) t2 (by norm_num) (by norm_num), hlo, hhi, hmid, hpd]
    decide!
  · rw [setAngle_stored s 90 t2 (by norm_num) (by norm_num), hlo, hhi, hmid, hpd]
    decide!

/-- C5 (the code at the failing input): for a servo constructed with the
bounds 0 and 100 the constructor sets the middle to 50 and `microsPerDegree`
to 1; for -60 degrees the signed sum is 50 - 60 = -10, below the minimum, and
`setAngle(-60)` stores 100, the maximum: the 16-bit sum wraps to 65526. -/
theorem C5_setAngle_wraps_below_zero (q : TimerQueries) (F_CPU : Nat)
    (outputPin : ServoPin) (initUs : Nat) (t t2 : HardwareTimer) :
    let s := (HardwareServo.new q F_CPU outputPin 0 100 initUs t).1
    s.minPulseWidthUs = 0 ∧ s.maxPulseWidthUs = 100 ∧
    s.midPulseWidthUs = 50 ∧ s.microsPerDegree = 1 ∧
    (s.midPulseWidthUs : ℤ) + roundHalfAway ((-60 : ℚ) * (s.microsPerDegree : ℚ)) = -10 ∧
    (s.midPulseWidthUs + toUint16 (round ((-60 : ℚ) * (s.microsPerDegree : ℚ)))) % 65536
      = 65526 ∧
    (s.setAngle (-60) t2).1.pulseWidthUs = 100 := by
  intro s
  obtain ⟨h1, h2, h3, h4, -, -, -⟩ := new_fields q F_CPU outputPin 0 100 initUs t
  have hlo : s.minPulseWidthUs = 0 := by rw [h1]; decide
  have hhi : s.maxPulseWidthUs = 100 := by rw [h2]; decide
  have hmid : s.midPulseWidthUs = 50 := by rw [h3]; decide!
  have hpd : s.microsPerDegree = 1 := by rw [h4]; decide!
  refine ⟨hlo, hhi, hmid, hpd, ?_, ?_, ?_⟩
  · rw [hmid, hpd, roundHalfAway_eq]
    decide!
  · rw [hmid, hpd]
    decide!
  · rw [setAngle_stored s (-60) t2 (by norm_num) (by norm_num), hlo, hhi, hmid, hpd]
    decide!

/-- The example of the specification: with the bounds 1000 and 2000 and 2
ticks per microsecond, `setAngle(45)` stores 1770 and leaves 3540 in the
compare register. -/
theorem setAngle_45_example :
    (exampleServo.setAngle 45 (timer16 .TIMER_PRESCALE_8 Mcu.reset)).1.pulseWidthUs = 1770 ∧
    (exampleServo.setAngle 45 (timer16 .TIMER_PRESCALE_8 Mcu.reset)).2.hw.compare .A
      = 3540 := by
  constructor <;> decide!

/-- The float arithmetic of the in-range branches.  On the example servo
(middle 1500, 6 microseconds per degree) the angle -82.91666412353516, the
binary32 value -10868053 / 131072, has the offset -497.4999847412109375, which
the float product rounds to -497.5: `setAngle` stores 1500 - 498 = 1002, where
the exact offset rounds to -497.  With the bounds 0 and 1000 (10 microseconds
per percent) the percentage 0.449999988079071044921875, the binary32 value
nearest to 0.45, has the width 4.49999988..., which the float product rounds
to 4.5: `setPosition` stores 5, where the exact width rounds to 4. -/
theorem in_range_float_examples :
    f32 ((-10868053 / 131072 : ℚ) * 6) = -995 / 2 ∧
    (exampleServo.setAngle (-10868053 / 131072)
      (timer16 .TIMER_PRESCALE_8 Mcu.reset)).1.pulseWidthUs = 1002 ∧
    (1500 : ℤ) + roundHalfAway ((-10868053 / 131072 : ℚ) * 6) = 1003 ∧
    f32 ((7549747 / 16777216 : ℚ) * 10) = 9 / 2 ∧
    (({ exampleServo with minPulseWidthUs := 0, maxPulseWidthUs := 1000,
                          midPulseWidthUs := 500
       } : HardwareServo).setPosition (7549747 / 16777216)
        (timer16 .TIMER_PRESCALE_8 Mcu.reset)).1.pulseWidthUs = 5 ∧
    roundHalfAway ((7549747 / 16777216 : ℚ) * 10) = 4 := by
  refine ⟨by decide!, by decide!, ?_, by decide!, by decide!, ?_⟩
  · rw [roundHalfAway_eq]
    decide!
  · rw [roundHalfAway_eq]
    decide!

/-- C6: after construction the bounds are 1000 and 2000 when `minUs >= maxUs`
and the given ones otherwise, so that `min < max` holds in every case. -/
theorem C6_constructor_bounds (q : TimerQueries) (F_CPU : Nat) (outputPin : ServoPin)
    (minUs maxUs initUs : Nat) (t : HardwareTimer) :
    let s := (HardwareServo.new q F_CPU outputPin minUs maxUs initUs t).1
    (s.minPulseWidthUs, s.maxPulseWidthUs) =
      (if minUs ≥ maxUs then (1000, 2000) else (minUs, maxUs)) ∧
    s.minPulseWidthUs < s.maxPulseWidthUs := by
  intro s
  obtain ⟨h1, h2, -⟩ := new_fields q F_CPU outputPin minUs maxUs initUs t
  have hlo : s.minPulseWidthUs = if minUs ≥ maxUs then 1000 else minUs := h1
  have hhi : s.maxPulseWidthUs = if minUs ≥ maxUs then 2000 else maxUs := h2
  rw [hlo, hhi]
  by_cases h : minUs ≥ maxUs
  · simp [h]
  · simp only [h, if_false, true_and]
    omega

/-- C7 (the code at the failing input): for the bounds 40000 and 50000 the
16-bit sum `min + max` wraps to 24464 and the constructor sets the middle to
12232, not to 45000; `microsPerDegree` is 56 and `microsPerPercent` is 100. -/
theorem C7_constructor_mid_wraps (q : TimerQueries) (F_CPU : Nat) (outputPin : ServoPin)
    (initUs : Nat) (t : HardwareTimer) :
    let s := (HardwareServo.new q F_CPU outputPin 40000 50000 initUs t).1
    s.minPulseWidthUs = 40000 ∧ s.maxPulseWidthUs = 50000 ∧
    s.midPulseWidthUs = 12232 ∧
    roundHalfAway (((40000 : ℚ) + 50000) / 2) = 45000 ∧
    s.microsPerDegree = 56 ∧ s.microsPerPercent = 100 := by
  intro s
  obtain ⟨h1, h2, h3, h4, h5, -, -⟩ := new_fields q F_CPU outputPin 40000 50000 initUs t
  refine ⟨by rw [h1]; decide, by rw [h2]; decide, by rw [h3]; decide!, ?_,
    by rw [h4]; decide!, by rw [h5]; decide!⟩
  rw [roundHalfAway_eq]
  decide!

/-- The example of the specification: the bounds 1000 and 2000 give the middle
1500, 6 microseconds per degree and 10 microseconds per percent. -/
theorem constructor_default_example (q : TimerQueries) (F_CPU : Nat)
    (outputPin : ServoPin) (initUs : Nat) (t : HardwareTimer) :
    let s := (HardwareServo.new q F_CPU outputPin 1000 2000 initUs t).1
    s.midPulseWidthUs = 1500 ∧ s.microsPerDegree = 6 ∧ s.microsPerPercent = 10 := by
  intro s
  obtain ⟨-, -, h3, h4, h5, -, -⟩ := new_fields q F_CPU outputPin 1000 2000 initUs t
  exact ⟨by rw [h3]; decide!, by rw [h4]; decide!, by rw [h5]; decide!⟩

theorem and_65535 (x : Nat) : x &&& 0xFFFF = x % 65536 :=
  Nat.and_pow_two_sub_one_eq_mod x 16

/-- The result of `__setupServoTimer` on a timer: the prescaler and tick
count chosen from `F_CPU / 400`, and the timer reprogrammed unless already
so configured. -/
theorem setupServoTimer_eq (q : TimerQueries) (F_CPU : Nat) (t : HardwareTimer)
    (hF : F_CPU < 2 ^ 32) :
    __setupServoTimer q F_CPU (some t) =
      if F_CPU / 400 > 0xFFFF then
        (some (servoTimerAfter q t .TIMER_PRESCALE_64
            ((F_CPU / 3200 % 65536 + 65535) % 65536)),
          F_CPU / 3200 % 65536)
      else if F_CPU / 400 < 20000 then
        (some (servoTimerAfter q t .TIMER_PRESCALE_NONE
            ((F_CPU / 50 % 65536 + 65535) % 65536)),
          F_CPU / 50 % 65536)
      else
        (some (servoTimerAfter q t .TIMER_PRESCALE_8 (F_CPU / 400 - 1)), F_CPU / 400) := by
  have e1 : F_CPU / 400 % 2 ^ 32 = F_CPU / 400 := by omega
  have e2 : F_CPU / 3200 % 2 ^ 32 = F_CPU / 3200 := by omega
  have e3 : F_CPU / 50 % 2 ^ 32 = F_CPU / 50 := by omega
  unfold __setupServoTimer servoTimerAfter
  simp only [Nat.reduceMul, e1, e2, e3, and_65535, Nat.mod_mod]
  by_cases h1 : F_CPU / 400 > 65535
  · simp only [h1, if_true]
    split_ifs <;> rfl
  · by_cases h2 : F_CPU / 400 < 20000
    · simp only [h1, h2, if_true, if_false]
      split_ifs <;> rfl
    · have e4 : F_CPU / 400 % 65536 = F_CPU / 400 := by omega
      have e5 : (F_CPU / 400 + 65535) % 65536 = F_CPU / 400 - 1 := by omega
      simp only [h1, h2, if_false, e4, e5]
      split_ifs <;> rfl

/-- The constructor builds `slowClockServo` from the arguments
`(OC1A, 0, 20000, 0)` when the clock is 14.7456 MHz. -/
theorem slowClockServo_constructed (q : TimerQueries) (t : HardwareTimer) :
    (HardwareServo.new q 14745600 .OC1A 0 20000 0 t).1 = slowClockServo := by
  have h : ∀ x : HardwareTimer, (__setupServoTimer q 14745600 (some x)).2 = 36864 := by
    intro x
    rw [setupServoTimer_eq q 14745600 x (by decide)]
    rfl
  have e1 : toUint16 (round (f32 ((((0 + 20000) % 65536 : Nat) : ℚ) / 2))) = 10000 := by
    decide!
  have e2 : toUint16 (round (f32 ((((20000 + 65536 - 0) % 65536 : Nat) : ℚ) / 180))) = 111 := by
    decide!
  have e3 : toUint16 (round (f32 ((((20000 + 65536 - 0) % 65536 : Nat) : ℚ) / 100))) = 200 := by
    decide!
  unfold HardwareServo.new slowClockServo
  simp only [ge_iff_le, show ¬ (20000 ≤ 0) by decide, if_false, timerOfPin, Option.map,
    h, e1, e2, e3]

/-- C8 (counterexample): for a 14.7456 MHz clock `__setupServoTimer` returns
36864 ticks, and the ticks per microsecond computed from them are the binary32
value 7730941 / 4194304, which is not 36864 / 20000. -/
theorem C8_ticks_per_microsecond_is_rounded :
    (__setupServoTimer registerQueries 14745600 (some (Timer1 Mcu.reset))).2 = 36864 ∧
    __ticksPerMicroS (__setupServoTimer registerQueries 14745600
      (some (Timer1 Mcu.reset))).2 = 7730941 / 4194304 ∧
    __ticksPerMicroS (__setupServoTimer registerQueries 14745600
      (some (Timer1 Mcu.reset))).2 ≠ ((14745600 / 400 : Nat) : ℚ) / 20000 := by
  have h : (__setupServoTimer registerQueries 14745600 (some (Timer1 Mcu.reset))).2
      = 36864 := by
    rw [setupServoTimer_eq registerQueries 14745600 _ (by decide)]
    rfl
  rw [h]
  exact ⟨rfl, by decide!, by decide!⟩

/-- C8 (amended): with `c = F_CPU / 400`, `__setupServoTimer` selects the
prescaler /64 when `c > 0xFFFF`, no prescaling when `c < 20000`, and /8
otherwise; when `20000 <= c <= 0xFFFF` it returns `c`, programs fast-PWM mode
with the TOP value `c - 1 < 0x10000` (unless the timer already reports this
configuration), and the ticks per microsecond are the float quotient of `c`
and 20000, that is `c / 20000` rounded to binary32, which is within
`2 ^ (-23)` of `c / 20000`.  For 16 MHz: /8, 40000 ticks, TOP 39999, and
exactly 2 ticks per microsecond. -/
theorem C8_setupServoTimer_selection (q : TimerQueries) (F_CPU : Nat) (t : HardwareTimer)
    (hF : F_CPU < 2 ^ 32) :
    let c := F_CPU / 400
    let r := __setupServoTimer q F_CPU (some t)
    (c > 0xFFFF →
      r.1 = some (servoTimerAfter q t .TIMER_PRESCALE_64 ((r.2 + 65535) % 65536))) ∧
    (c < 20000 →
      r.1 = some (servoTimerAfter q t .TIMER_PRESCALE_NONE ((r.2 + 65535) % 65536))) ∧
    (20000 ≤ c → c ≤ 0xFFFF →
      r.1 = some (servoTimerAfter q t .TIMER_PRESCALE_8 (c - 1)) ∧
      r.2 = c ∧ 20000 ≤ r.2 ∧ c - 1 < 0x10000 ∧
      __ticksPerMicroS r.2 = f32 ((c : ℚ) / 20000) ∧
      |__ticksPerMicroS r.2 - (c : ℚ) / 20000| ≤ 1 / 2 ^ 23) ∧
    (F_CPU = 16000000 →
      r.1 = some (servoTimerAfter q t .TIMER_PRESCALE_8 39999) ∧
      r.2 = 40000 ∧ __ticksPerMicroS r.2 = 2) := by
  intro c r
  have hr : r = _ := setupServoTimer_eq q F_CPU t hF
  have h3 : 20000 ≤ c → c ≤ 0xFFFF →
      r.1 = some (servoTimerAfter q t .TIMER_PRESCALE_8 (c - 1)) ∧
      r.2 = c ∧ 20000 ≤ r.2 ∧ c - 1 < 0x10000 ∧
      __ticksPerMicroS r.2 = f32 ((c : ℚ) / 20000) ∧
      |__ticksPerMicroS r.2 - (c : ℚ) / 20000| ≤ 1 / 2 ^ 23 := by
    intro ha hb
    have n1 : ¬ F_CPU / 400 > 0xFFFF := not_lt.mpr hb
    have n2 : ¬ F_CPU / 400 < 20000 := not_lt.mpr ha
    rw [hr, if_neg n1, if_neg n2]
    refine ⟨rfl, rfl, ha, ?_, rfl, ?_⟩
    · show F_CPU / 400 - 1 < 0x10000
      omega
    · show |f32 (((F_CPU / 400 : Nat) : ℚ) / 20000) - ((F_CPU / 400 : Nat) : ℚ) / 20000|
        ≤ 1 / 2 ^ 23
      have hc4 : (((F_CPU / 400 : Nat) : ℚ)) / 20000 < 4 := by
        have : ((F_CPU / 400 : Nat) : ℚ) ≤ 65535 := by exact_mod_cast hb
        linarith
      have hc0 : (0 : ℚ) ≤ ((F_CPU / 400 : Nat) : ℚ) / 20000 := by positivity
      exact f32_error4 _ (by rw [abs_of_nonneg hc0]; exact hc4)
  refine ⟨?_, ?_, h3, ?_⟩
  · intro h
    rw [hr]
    simp only [show F_CPU / 400 > 0xFFFF from h, if_true]
  · intro h
    have n1 : ¬ F_CPU / 400 > 0xFFFF := by
      have : F_CPU / 400 < 20000 := h
      omega
    rw [hr]
    simp only [n1, show F_CPU / 400 < 20000 from h, if_true, if_false]
  · intro h16
    have hc : c = 40000 := by
      show F_CPU / 400 = 40000
      rw [h16]
    obtain ⟨a1, a2, -, -, a5, -⟩ := h3 (by omega) (by omega)
    rw [hc] at a1 a2 a5
    refine ⟨a1, a2, ?_⟩
    rw [a5]
    decide!

/-- C8 at 16 MHz on a predefined 16-bit timer after reset: 40000 ticks are
returned, the timer is reprogrammed with prescaler /8 and TOP 39999, which the
input capture register pair then holds, and the ticks per microsecond are 2. -/
theorem C8_setupServoTimer_selection_witness :
    (__setupServoTimer registerQueries 16000000 (some (Timer1 Mcu.reset))).2 = 40000 ∧
    (__setupServoTimer registerQueries 16000000 (some (Timer1 Mcu.reset))).1 =
      some (servoTimerAfter registerQueries (Timer1 Mcu.reset) .TIMER_PRESCALE_8 39999) ∧
    __ticksPerMicroS
      (__setupServoTimer registerQueries 16000000 (some (Timer1 Mcu.reset))).2 = 2 :=
  have h := (C8_setupServoTimer_selection registerQueries 16000000 (Timer1 Mcu.reset)
    (by decide)).2.2.2 rfl
  ⟨h.2.1, h.1, h.2.2⟩

/-- C9 (the code at the failing input): for a 4 MHz clock `__setupServoTimer`
selects no prescaling, for which 20 ms are 4000000 / 50 = 80000 ticks; the
cast to 16 bits leaves 14464, which is returned, and the TOP programmed is
14463. -/
theorem C9_setupServoTimer_4MHz_truncates (q : TimerQueries) (t : HardwareTimer) :
    (__setupServoTimer q 4000000 (some t)).2 = 14464 ∧
    (__setupServoTimer q 4000000 (some t)).1 =
      some (servoTimerAfter q t .TIMER_PRESCALE_NONE 14463) ∧
    4000000 / (50 * 1) = 80000 := by
  rw [setupServoTimer_eq q 4000000 t (by decide)]
  norm_num

/-- C10 (the code at the failing input): on a predefined 16-bit timer after
reset, `setCompareValue` for channel A with `inverting = true` leaves the
compare-output-mode bits of the channel at 0b11, and a following
`setCompareValue` for channel A with `inverting = false` leaves them at 0b11
as well, not at 0b10: the new bits are or-ed into the old ones. -/
theorem C10_setCompareValue_keeps_inverting_bits :
    (((timer16 .TIMER_PRESCALE_8 Mcu.reset).setCompareValue TIMER_OCR_A 3000 true
        ).hw.mem .TCCRnA >>> COM0A0) % 4 = 3 ∧
    ((((timer16 .TIMER_PRESCALE_8 Mcu.reset).setCompareValue TIMER_OCR_A 3000 true
        ).setCompareValue TIMER_OCR_A 3000 false).hw.mem .TCCRnA >>> COM0A0) % 4 = 3 ∧
    (((timer16 .TIMER_PRESCALE_8 Mcu.reset).setCompareValue TIMER_OCR_A 3000 true
        ).setCompareValue TIMER_OCR_A 3000 false).hw.compare .A = 3000 := by
  decide!

/-- C11: `resetTimerControl` stores `TCCRnA`, then `TCCRnC` (on a 16-bit timer
only), then `TCCRnB`, each with global interrupts disabled, and leaves `SREG`
as it was on entry. -/
theorem C11_resetTimerControl_order (p : TimerPrescaler) (hw : Mcu)
    (controlA controlB controlC : Nat) :
    ((timer16 p hw).resetTimerControl controlA controlB controlC).hw.trace =
      hw.trace ++ [⟨.TCCRnA, controlA % 256, false⟩, ⟨.TCCRnC, controlC % 256, false⟩,
        ⟨.TCCRnB, controlB % 256, false⟩] ∧
    ((timer8 p hw).resetTimerControl controlA controlB controlC).hw.trace =
      hw.trace ++ [⟨.TCCRnA, controlA % 256, false⟩, ⟨.TCCRnB, controlB % 256, false⟩] ∧
    ((timer16 p hw).resetTimerControl controlA controlB controlC).hw.SREG = hw.SREG ∧
    ((timer8 p hw).resetTimerControl controlA controlB controlC).hw.SREG = hw.SREG := by
  refine ⟨?_, ?_, ?_, ?_⟩ <;>
  simp [HardwareTimer.resetTimerControl, timer16, timer8, Timer0, Timer1,
    HardwareTimer.new, Mcu.store, Mcu.cli, testBit_127_7]

/-- The clock-select bits `__setClockSelect` puts into a value whose low three
bits are clear. -/
theorem setClockSelect_eq (p : TimerPrescaler) :
    __setClockSelect 0 p = clockSelectBits p ∧
    __setClockSelect 24 p = 24 + clockSelectBits p := by
  cases p <;> decide

theorem clockSelectBits_le (p : TimerPrescaler) : clockSelectBits p ≤ 5 := by
  cases p <;> decide

theorem setPrescaler_eq (t : HardwareTimer) (p : TimerPrescaler) :
    t.setPrescaler p = { t with prescale := p } := by
  unfold HardwareTimer.setPrescaler
  split_ifs with h
  · rfl
  · have e : p = t.prescale := not_not.mp h
    rw [e]

theorem setNormalMode_tccrB16 (p : TimerPrescaler) (hw : Mcu) :
    (timer16 p hw).setNormalMode.hw.mem .TCCRnB = clockSelectBits p := by
  have h : (timer16 p hw).setNormalMode.hw.mem .TCCRnB = __setClockSelect 0 p % 256 := by
    simp [HardwareTimer.setNormalMode, HardwareTimer.resetTimerControl, timer16, Timer1,
      HardwareTimer.new, __setWideReg, Mcu.store, Mcu.cli]
  have hcs := clockSelectBits_le p
  rw [h, (setClockSelect_eq p).1]
  omega

theorem setNormalMode_tccrB8 (p : TimerPrescaler) (hw : Mcu) :
    (timer8 p hw).setNormalMode.hw.mem .TCCRnB = clockSelectBits p := by
  have h : (timer8 p hw).setNormalMode.hw.mem .TCCRnB = __setClockSelect 0 p % 256 := by
    simp [HardwareTimer.setNormalMode, HardwareTimer.resetTimerControl, timer8, Timer0,
      HardwareTimer.new, __setWideReg, Mcu.store, Mcu.cli]
  have hcs := clockSelectBits_le p
  rw [h, (setClockSelect_eq p).1]
  omega

theorem setFastPwmMode_tccrB16 (p : TimerPrescaler) (hw : Mcu) (top : Nat) :
    ((timer16 p hw).setFastPwmMode top).hw.mem .TCCRnB = 24 + clockSelectBits p := by
  have h : ((timer16 p hw).setFastPwmMode top).hw.mem .TCCRnB =
      __setClockSelect 24 p % 256 := by
    simp [HardwareTimer.setFastPwmMode, HardwareTimer.resetTimerControl, timer16, Timer1,
      HardwareTimer.new, __setWideReg, Mcu.store, Mcu.cli, bitSet, WGM11, WGM12, WGM13]
  have hcs := clockSelectBits_le p
  rw [h, (setClockSelect_eq p).2]
  omega

theorem setFastPwmMode_tccrB8 (p : TimerPrescaler) (hw : Mcu) (top : Nat) :
    ((timer8 p hw).setFastPwmMode top).hw.mem .TCCRnB = clockSelectBits p := by
  have h : ((timer8 p hw).setFastPwmMode top).hw.mem .TCCRnB =
      __setClockSelect 0 p % 256 := by
    simp [HardwareTimer.setFastPwmMode, HardwareTimer.resetTimerControl, timer8, Timer0,
      HardwareTimer.new, __setWideReg, Mcu.store, Mcu.cli, bitSet, WGM00, WGM01]
  have hcs := clockSelectBits_le p
  rw [h, (setClockSelect_eq p).1]
  omega

theorem setFastPwmMode_tccrA16 (p : TimerPrescaler) (hw : Mcu) (top : Nat) :
    ((timer16 p hw).setFastPwmMode top).hw.mem .TCCRnA = 2 := by
  simp [HardwareTimer.setFastPwmMode, HardwareTimer.resetTimerControl, timer16, Timer1,
    HardwareTimer.new, __setWideReg, Mcu.store, Mcu.cli, bitSet, WGM11, WGM12, WGM13]

theorem setFastPwmMode_tccrA8 (p : TimerPrescaler) (hw : Mcu) (top : Nat) :
    ((timer8 p hw).setFastPwmMode top).hw.mem .TCCRnA = 3 := by
  simp [HardwareTimer.setFastPwmMode, HardwareTimer.resetTimerControl, timer8, Timer0,
    HardwareTimer.new, __setWideReg, Mcu.store, Mcu.cli, bitSet, WGM00, WGM01]

/-- C12: after `setFastPwmMode(top)` a 16-bit timer has only `WGMn1` set in
`TCCRnA`, exactly `WGMn2`, `WGMn3` and the clock-select bits of the staged
prescaler in `TCCRnB`, `TCCRnC = 0`, `top` in the input capture register pair
and a zero counter; an 8-bit timer has only `WGM00` and `WGM01` set in
`TCCRnA`, exactly the clock-select bits in `TCCRnB`, a zero counter, and the
same state for every `top`.  In both, the compare-output-mode bits of every
channel are clear. -/
theorem C12_setFastPwmMode_state (p : TimerPrescaler) (hw : Mcu) (top top2 : Nat)
    (htop : top < 65536) :
    (((timer16 p hw).setFastPwmMode top).hw.mem .TCCRnA = 2 ^ WGM11 ∧
      ((timer16 p hw).setFastPwmMode top).hw.mem .TCCRnB =
        2 ^ WGM12 + 2 ^ WGM13 + clockSelectBits p ∧
      ((timer16 p hw).setFastPwmMode top).hw.mem .TCCRnC = 0 ∧
      256 * ((timer16 p hw).setFastPwmMode top).hw.mem .ICRnH +
        ((timer16 p hw).setFastPwmMode top).hw.mem .ICRnL = top ∧
      ((timer16 p hw).setFastPwmMode top).hw.mem .TCNTnH = 0 ∧
      ((timer16 p hw).setFastPwmMode top).hw.mem .TCNTnL = 0) ∧
    (((timer8 p hw).setFastPwmMode top).hw.mem .TCCRnA = 2 ^ WGM00 + 2 ^ WGM01 ∧
      ((timer8 p hw).setFastPwmMode top).hw.mem .TCCRnB = clockSelectBits p ∧
      ((timer8 p hw).setFastPwmMode top).hw.mem .TCNTnL = 0 ∧
      (timer8 p hw).setFastPwmMode top = (timer8 p hw).setFastPwmMode top2) ∧
    (∀ c : Channel,
      (((timer16 p hw).setFastPwmMode top).hw.mem .TCCRnA >>> c.comShift) % 4 = 0 ∧
      (((timer8 p hw).setFastPwmMode top).hw.mem .TCCRnA >>> c.comShift) % 4 = 0) := by
  have hA16 := setFastPwmMode_tccrA16 p hw top
  have hA8 := setFastPwmMode_tccrA8 p hw top
  refine ⟨⟨?_, ?_, ?_, ?_, ?_, ?_⟩, ⟨?_, ?_, ?_, ?_⟩, ?_⟩
  · rw [hA16]; rfl
  · rw [setFastPwmMode_tccrB16]
    rfl
  · simp [HardwareTimer.setFastPwmMode, HardwareTimer.resetTimerControl, timer16, Timer1,
      HardwareTimer.new, __setWideReg, Mcu.store, Mcu.cli, bitSet, WGM11, WGM12, WGM13]
  · simp [HardwareTimer.setFastPwmMode, HardwareTimer.resetTimerControl, timer16, Timer1,
      HardwareTimer.new, __setWideReg, Mcu.store, Mcu.cli, bitSet, WGM11, WGM12, WGM13,
      highByte_eq top htop, lowByte_eq]
    omega
  · simp [HardwareTimer.setFastPwmMode, HardwareTimer.resetTimerControl, timer16, Timer1,
      HardwareTimer.new, __setWideReg, Mcu.store, Mcu.cli, bitSet, WGM11, WGM12, WGM13,
      highByte, lowByte]
  · simp [HardwareTimer.setFastPwmMode, HardwareTimer.resetTimerControl, timer16, Timer1,
      HardwareTimer.new, __setWideReg, Mcu.store, Mcu.cli, bitSet, WGM11, WGM12, WGM13,
      highByte, lowByte]
  · rw [hA8]; rfl
  · exact setFastPwmMode_tccrB8 p hw top
  · simp [HardwareTimer.setFastPwmMode, HardwareTimer.resetTimerControl, timer8, Timer0,
      HardwareTimer.new, __setWideReg, Mcu.store, Mcu.cli, bitSet, WGM00, WGM01,
      highByte, lowByte]
  · simp [HardwareTimer.setFastPwmMode, timer8, Timer0, HardwareTimer.new]
  · intro c
    rw [hA16, hA8]
    cases c <;> decide

/-- C12 at a 16-bit timer after reset staged with prescaler /8: after
`setFastPwmMode(39999)` the input capture register pair holds 39999. -/
theorem C12_setFastPwmMode_state_witness :
    256 * ((timer16 .TIMER_PRESCALE_8 Mcu.reset).setFastPwmMode 39999).hw.mem .ICRnH +
      ((timer16 .TIMER_PRESCALE_8 Mcu.reset).setFastPwmMode 39999).hw.mem .ICRnL = 39999 :=
  (C12_setFastPwmMode_state .TIMER_PRESCALE_8 Mcu.reset 39999 0 (by decide)).1.2.2.2.1

/-- C13: after `setNormalMode()` `TCCRnA` is 0, `TCCRnB` holds exactly the
clock-select bits of the staged prescaler, `TCCRnC` is 0 on a 16-bit timer,
and the counter is 0, on a 16-bit and on an 8-bit timer in any state. -/
theorem C13_setNormalMode_state (p : TimerPrescaler) (hw : Mcu) :
    ((timer16 p hw).setNormalMode.hw.mem .TCCRnA = 0 ∧
      (timer16 p hw).setNormalMode.hw.mem .TCCRnB = clockSelectBits p ∧
      (timer16 p hw).setNormalMode.hw.mem .TCCRnC = 0 ∧
      (timer16 p hw).setNormalMode.hw.mem .TCNTnH = 0 ∧
      (timer16 p hw).setNormalMode.hw.mem .TCNTnL = 0) ∧
    ((timer8 p hw).setNormalMode.hw.mem .TCCRnA = 0 ∧
      (timer8 p hw).setNormalMode.hw.mem .TCCRnB = clockSelectBits p ∧
      (timer8 p hw).setNormalMode.hw.mem .TCNTnL = 0) := by
  refine ⟨⟨?_, ?_, ?_, ?_, ?_⟩, ⟨?_, ?_, ?_⟩⟩
  · simp [HardwareTimer.setNormalMode, HardwareTimer.resetTimerControl, timer16, Timer1,
      HardwareTimer.new, __setWideReg, Mcu.store, Mcu.cli]
  · exact setNormalMode_tccrB16 p hw
  · simp [HardwareTimer.setNormalMode, HardwareTimer.resetTimerControl, timer16, Timer1,
      HardwareTimer.new, __setWideReg, Mcu.store, Mcu.cli]
  · simp [HardwareTimer.setNormalMode, HardwareTimer.resetTimerControl, timer16, Timer1,
      HardwareTimer.new, __setWideReg, Mcu.store, Mcu.cli, highByte, lowByte]
  · simp [HardwareTimer.setNormalMode, HardwareTimer.resetTimerControl, timer16, Timer1,
      HardwareTimer.new, __setWideReg, Mcu.store, Mcu.cli, highByte, lowByte]
  · simp [HardwareTimer.setNormalMode, HardwareTimer.resetTimerControl, timer8, Timer0,
      HardwareTimer.new, __setWideReg, Mcu.store, Mcu.cli]
  · exact setNormalMode_tccrB8 p hw
  · simp [HardwareTimer.setNormalMode, HardwareTimer.resetTimerControl, timer8, Timer0,
      HardwareTimer.new, __setWideReg, Mcu.store, Mcu.cli, highByte, lowByte]

/-- C14: `setPrescaler(p)` changes the staged prescaler and nothing else: the
machine state, with every register and the sequence of stores made, and the
other fields of the object are as before.  The clock-select bits that the next
`setNormalMode` or `setFastPwmMode` stores in `TCCRnB` are those of the
prescaler staged last. -/
theorem C14_setPrescaler_stages_only (t : HardwareTimer) (p0 p1 p2 : TimerPrescaler)
    (hw : Mcu) (top : Nat) :
    t.setPrescaler p1 = { t with prescale := p1 } ∧
    (t.setPrescaler p1).hw = t.hw ∧
    (timer16 p0 hw).setPrescaler p1 = timer16 p1 hw ∧
    (timer8 p0 hw).setPrescaler p1 = timer8 p1 hw ∧
    (((timer16 p0 hw).setPrescaler p1).setPrescaler p2).setNormalMode.hw.mem .TCCRnB % 8 =
      clockSelectBits p2 ∧
    ((((timer16 p0 hw).setPrescaler p1).setPrescaler p2).setFastPwmMode top).hw.mem .TCCRnB % 8 =
      clockSelectBits p2 ∧
    (((timer8 p0 hw).setPrescaler p1).setPrescaler p2).setNormalMode.hw.mem .TCCRnB % 8 =
      clockSelectBits p2 ∧
    ((((timer8 p0 hw).setPrescaler p1).setPrescaler p2).setFastPwmMode top).hw.mem .TCCRnB % 8 =
      clockSelectBits p2 := by
  have h16 : ∀ a b : TimerPrescaler, (timer16 a hw).setPrescaler b = timer16 b hw := by
    intro a b
    rw [setPrescaler_eq]
    rfl
  have h8 : ∀ a b : TimerPrescaler, (timer8 a hw).setPrescaler b = timer8 b hw := by
    intro a b
    rw [setPrescaler_eq]
    rfl
  have hcs := clockSelectBits_le p2
  refine ⟨setPrescaler_eq t p1, ?_, h16 p0 p1, h8 p0 p1, ?_, ?_, ?_, ?_⟩
  · rw [setPrescaler_eq]
  · rw [h16, h16, setNormalMode_tccrB16]
    omega
  · rw [h16, h16, setFastPwmMode_tccrB16]
    omega
  · rw [h8, h8, setNormalMode_tccrB8]
    omega
  · rw [h8, h8, setFastPwmMode_tccrB8]
    omega

/-- C15: `setCompareValue` with neither channel A nor channel B requested on
an 8-bit timer (channel C or unused mask bits may be requested), or with none
of the channels A, B, C requested on a 16-bit timer, leaves the value read
from every register and `SREG` as before: the only stores made write their
current values back to the control registers. -/
theorem C15_setCompareValue_no_channel (p : TimerPrescaler) (hw : Mcu)
    (channels value : Nat) (inverting : Bool)
    (hA : channels &&& TIMER_OCR_A = 0) (hB : channels &&& TIMER_OCR_B = 0) :
    ((∀ r : Reg, ((timer8 p hw).setCompareValue channels value inverting).hw.load (some r) =
        hw.load (some r)) ∧
      ((timer8 p hw).setCompareValue channels value inverting).hw.SREG = hw.SREG ∧
      ((timer8 p hw).setCompareValue channels value inverting).hw.trace =
        hw.trace ++ [⟨.TCCRnA, hw.load (some .TCCRnA), false⟩,
          ⟨.TCCRnB, hw.load (some .TCCRnB), false⟩]) ∧
    (channels &&& TIMER_OCR_C = 0 →
      (∀ r : Reg, ((timer16 p hw).setCompareValue channels value inverting).hw.load (some r) =
        hw.load (some r)) ∧
      ((timer16 p hw).setCompareValue channels value inverting).hw.SREG = hw.SREG ∧
      ((timer16 p hw).setCompareValue channels value inverting).hw.trace =
        hw.trace ++ [⟨.TCCRnA, hw.load (some .TCCRnA), false⟩,
          ⟨.TCCRnC, hw.load (some .TCCRnC), false⟩,
          ⟨.TCCRnB, hw.load (some .TCCRnB), false⟩]) := by
  have hA1 : channels &&& 1 = 0 := hA
  have hB1 : channels &&& 2 = 0 := hB
  refine ⟨⟨?_, ?_, ?_⟩, ?_⟩
  · intro r
    cases r <;>
    simp [HardwareTimer.setCompareValue, HardwareTimer.resetTimerControl, timer8, Timer0,
      HardwareTimer.new, TIMER_OCR_A, TIMER_OCR_B, TIMER_OCR_C, bit, Mcu.store, Mcu.cli,
      Mcu.load, hA1, hB1]
  · simp [HardwareTimer.setCompareValue, HardwareTimer.resetTimerControl, timer8, Timer0,
      HardwareTimer.new, TIMER_OCR_A, TIMER_OCR_B, TIMER_OCR_C, bit, Mcu.store, Mcu.cli,
      Mcu.load, hA1, hB1]
  · simp [HardwareTimer.setCompareValue, HardwareTimer.resetTimerControl, timer8, Timer0,
      HardwareTimer.new, TIMER_OCR_A, TIMER_OCR_B, TIMER_OCR_C, bit, Mcu.store, Mcu.cli,
      Mcu.load, hA1, hB1, testBit_127_7]
  · intro hC
    have hC1 : channels &&& 4 = 0 := hC
    refine ⟨?_, ?_, ?_⟩
    · intro r
      cases r <;>
      simp [HardwareTimer.setCompareValue, HardwareTimer.resetTimerControl, timer16, Timer1,
        HardwareTimer.new, TIMER_OCR_A, TIMER_OCR_B, TIMER_OCR_C, bit, Mcu.store, Mcu.cli,
        Mcu.load, hA1, hB1, hC1]
    · simp [HardwareTimer.setCompareValue, HardwareTimer.resetTimerControl, timer16, Timer1,
        HardwareTimer.new, TIMER_OCR_A, TIMER_OCR_B, TIMER_OCR_C, bit, Mcu.store, Mcu.cli,
        Mcu.load, hA1, hB1, hC1]
    · simp [HardwareTimer.setCompareValue, HardwareTimer.resetTimerControl, timer16, Timer1,
        HardwareTimer.new, TIMER_OCR_A, TIMER_OCR_B, TIMER_OCR_C, bit, Mcu.store, Mcu.cli,
        Mcu.load, hA1, hB1, hC1, testBit_127_7]

/-- C15 at concrete requests: channel C alone on an 8-bit timer leaves the
compare register of channel A as it was, and the mask 8 on a 16-bit timer
leaves `TCCRnA` as it was. -/
theorem C15_setCompareValue_no_channel_witness :
    ((timer8 .TIMER_PRESCALE_8 Mcu.reset).setCompareValue TIMER_OCR_C 3000 false).hw.load
        (some .OCRnAL) = Mcu.reset.load (some .OCRnAL) ∧
    ((timer16 .TIMER_PRESCALE_8 Mcu.reset).setCompareValue 8 3000 true).hw.load
        (some .TCCRnA) = Mcu.reset.load (some .TCCRnA) :=
  ⟨(C15_setCompareValue_no_channel .TIMER_PRESCALE_8 Mcu.reset TIMER_OCR_C 3000 false
      (by decide) (by decide)).1.1 .OCRnAL,
    ((C15_setCompareValue_no_channel .TIMER_PRESCALE_8 Mcu.reset 8 3000 true
      (by decide) (by decide)).2 (by decide)).1 .TCCRnA⟩

/-- The compare register bytes of a requested channel after `setCompareValue`
on a predefined 16-bit timer, for any mask. -/
theorem setCompareValue_timer16_bytes (p : TimerPrescaler) (hw : Mcu)
    (channels v : Nat) (inverting : Bool) (c : Channel)
    (hv : v < 65536) (hc : channels &&& c.mask ≠ 0) :
    ((timer16 p hw).setCompareValue channels v inverting).hw.mem c.regH = v / 256 ∧
    ((timer16 p hw).setCompareValue channels v inverting).hw.mem c.regL = v % 256 := by
  have h256 : v / 256 % 256 = v / 256 := by omega
  unfold HardwareTimer.setCompareValue
  cases c
  · have hA : channels &&& TIMER_OCR_A ≠ 0 := hc
    generalize channels &&& TIMER_OCR_A = a at hA
    generalize channels &&& TIMER_OCR_B = b
    generalize channels &&& TIMER_OCR_C = c
    by_cases hB : b = 0 <;> by_cases hC : c = 0 <;>
    simp [hA, hB, hC, h256, Channel.regH, Channel.regL,
      HardwareTimer.resetTimerControl, timer16, Timer1,
      HardwareTimer.new, Mcu.store, Mcu.cli,
      Mcu.load, __setWideReg, highByte_eq v hv, lowByte_eq]
  · have hB : channels &&& TIMER_OCR_B ≠ 0 := hc
    generalize channels &&& TIMER_OCR_B = b at hB
    generalize channels &&& TIMER_OCR_A = a
    generalize channels &&& TIMER_OCR_C = c
    by_cases hA : a = 0 <;> by_cases hC : c = 0 <;>
    simp [hA, hB, hC, h256, Channel.regH, Channel.regL,
      HardwareTimer.resetTimerControl, timer16, Timer1,
      HardwareTimer.new, Mcu.store, Mcu.cli,
      Mcu.load, __setWideReg, highByte_eq v hv, lowByte_eq]
  · have hC : channels &&& TIMER_OCR_C ≠ 0 := hc
    generalize channels &&& TIMER_OCR_C = c at hC
    generalize channels &&& TIMER_OCR_A = a
    generalize channels &&& TIMER_OCR_B = b
    by_cases hA : a = 0 <;> by_cases hB : b = 0 <;>
    simp [hA, hB, hC, h256, Channel.regH, Channel.regL,
      HardwareTimer.resetTimerControl, timer16, Timer1,
      HardwareTimer.new, Mcu.store, Mcu.cli,
      Mcu.load, __setWideReg, highByte_eq v hv, lowByte_eq]

/-- The effect of `setCompareValue` on a predefined 8-bit timer, for any mask:
a requested channel A or B gets the low byte, no high-byte register changes,
and stores go to low-byte compare registers and to `TCCRnA`, `TCCRnB` only. -/
theorem setCompareValue_timer8_bytes (p : TimerPrescaler) (hw : Mcu)
    (channels v : Nat) (inverting : Bool) :
    (channels &&& TIMER_OCR_A ≠ 0 →
      ((timer8 p hw).setCompareValue channels v inverting).hw.mem .OCRnAL = v % 256) ∧
    (channels &&& TIMER_OCR_B ≠ 0 →
      ((timer8 p hw).setCompareValue channels v inverting).hw.mem .OCRnBL = v % 256) ∧
    (∀ ch : Channel,
      ((timer8 p hw).setCompareValue channels v inverting).hw.mem ch.regH = hw.mem ch.regH) ∧
    (∀ w ∈ ((timer8 p hw).setCompareValue channels v inverting).hw.trace,
      w ∈ hw.trace ∨ w.reg = .OCRnAL ∨ w.reg = .OCRnBL ∨
        w.reg = .TCCRnA ∨ w.reg = .TCCRnB) := by
  unfold HardwareTimer.setCompareValue
  generalize channels &&& TIMER_OCR_A = a
  generalize channels &&& TIMER_OCR_B = b
  refine ⟨?_, ?_, ?_, ?_⟩
  · intro hA
    by_cases hB : b = 0 <;>
    simp [hA, hB, HardwareTimer.resetTimerControl, timer8, Timer0,
      HardwareTimer.new, Mcu.store, Mcu.cli, Mcu.load, __setWideReg, lowByte_eq]
  · intro hB
    by_cases hA : a = 0 <;>
    simp [hA, hB, HardwareTimer.resetTimerControl, timer8, Timer0,
      HardwareTimer.new, Mcu.store, Mcu.cli, Mcu.load, __setWideReg, lowByte_eq]
  · intro ch
    by_cases hA : a = 0 <;> by_cases hB : b = 0 <;> cases ch <;>
    simp [hA, hB, Channel.regH, HardwareTimer.resetTimerControl, timer8, Timer0,
      HardwareTimer.new, Mcu.store, Mcu.cli, Mcu.load, __setWideReg, lowByte_eq]
  · intro w
    by_cases hA : a = 0 <;> by_cases hB : b = 0 <;>
    simp [hA, hB, HardwareTimer.resetTimerControl, timer8, Timer0,
      HardwareTimer.new, Mcu.store, Mcu.cli, Mcu.load, __setWideReg, lowByte_eq] <;>
    aesop

/-- C16: after `setCompareValue` with a channel requested and a 16-bit value
`v`, on a 16-bit timer the high and low compare registers of the channel hold
`v / 256` and `v % 256`, so that the pair reads back as `v`; on an 8-bit
timer, for the channels A and B, the compare register holds `v % 256`, every
high-byte register keeps its content, and every store made goes to a low-byte
compare register or to `TCCRnA` or `TCCRnB`. -/
theorem C16_setCompareValue_register (p : TimerPrescaler) (hw : Mcu)
    (channels v : Nat) (inverting : Bool) (c : Channel)
    (hv : v < 65536) (hc : channels &&& c.mask ≠ 0) :
    (((timer16 p hw).setCompareValue channels v inverting).hw.mem c.regH = v / 256 ∧
      ((timer16 p hw).setCompareValue channels v inverting).hw.mem c.regL = v % 256 ∧
      ((timer16 p hw).setCompareValue channels v inverting).hw.compare c = v) ∧
    (c ≠ .C →
      ((timer8 p hw).setCompareValue channels v inverting).hw.mem c.regL = v % 256 ∧
      (∀ ch : Channel,
        ((timer8 p hw).setCompareValue channels v inverting).hw.mem ch.regH =
          hw.mem ch.regH) ∧
      (∀ w ∈ ((timer8 p hw).setCompareValue channels v inverting).hw.trace,
        w ∈ hw.trace ∨ w.reg = .OCRnAL ∨ w.reg = .OCRnBL ∨
          w.reg = .TCCRnA ∨ w.reg = .TCCRnB)) := by
  obtain ⟨hH, hL⟩ := setCompareValue_timer16_bytes p hw channels v inverting c hv hc
  obtain ⟨h8A, h8B, h8H, h8T⟩ := setCompareValue_timer8_bytes p hw channels v inverting
  refine ⟨⟨hH, hL, ?_⟩, ?_⟩
  · unfold Mcu.compare Mcu.load
    simp only [hH, hL]
    omega
  · intro hnC
    refine ⟨?_, h8H, h8T⟩
    cases c
    · exact h8A hc
    · exact h8B hc
    · exact absurd rfl hnC

/-- C16 at concrete requests: the value 3000 for channel B of a 16-bit timer
reads back as 3000, and for channel A of an 8-bit timer leaves 3000 % 256 =
184 in the compare register. -/
theorem C16_setCompareValue_register_witness :
    ((timer16 .TIMER_PRESCALE_8 Mcu.reset).setCompareValue TIMER_OCR_B 3000 false).hw.compare
        .B = 3000 ∧
    ((timer8 .TIMER_PRESCALE_8 Mcu.reset).setCompareValue TIMER_OCR_A 3000 false).hw.mem
        .OCRnAL = 184 :=
  ⟨(C16_setCompareValue_register .TIMER_PRESCALE_8 Mcu.reset TIMER_OCR_B 3000 false .B
      (by decide) (by decide)).1.2.2,
    ((C16_setCompareValue_register .TIMER_PRESCALE_8 Mcu.reset TIMER_OCR_A 3000 false .A
      (by decide) (by decide)).2 (by decide)).1⟩

theorem or_mod_idem (y k : Nat) (hk : k < 256) :
    ((y % 256 ||| k) % 256 ||| k) % 256 = (y % 256 ||| k) % 256 := by
  have h1 : y % 256 ||| k < 2 ^ 8 := Nat.or_lt_two_pow (Nat.mod_lt _ (by decide)) hk
  have h2 : (y % 256 ||| k) % 256 = y % 256 ||| k := Nat.mod_eq_of_lt h1
  rw [h2, Nat.or_assoc, Nat.or_self, h2]

theorem setCompareValue_fields (t : HardwareTimer) (channels value : Nat) (inverting : Bool) :
    t.setCompareValue channels value inverting =
      { t with hw := (t.setCompareValue channels value inverting).hw } := by
  unfold HardwareTimer.setCompareValue HardwareTimer.resetTimerControl
  rfl

/-- C17: on a predefined 16-bit timer in any state, a second `setPulseWidth`
with the same argument leaves the servo, every register and `SREG` as the
first call left them, and makes the same stores, with the same values, as the
first call made. -/
theorem C17_setPulseWidth_twice (s : HardwareServo) (p : TimerPrescaler) (hw : Mcu)
    (pulseWidthUs : Nat) :
    let r1 := s.setPulseWidth pulseWidthUs (timer16 p hw)
    let r2 := r1.1.setPulseWidth pulseWidthUs r1.2
    r2.1 = r1.1 ∧ r2.2.hw.mem = r1.2.hw.mem ∧ r2.2.hw.SREG = r1.2.hw.SREG ∧
    r2.2.hw.trace = r1.2.hw.trace ++ r1.2.hw.trace.drop hw.trace.length ∧
    (r1.2.hw.trace.drop hw.trace.length).length = 5 := by
  intro r1 r2
  -- the clamped width and the compare value of the first call
  let pw := if pulseWidthUs < s.minPulseWidthUs then s.minPulseWidthUs
    else if pulseWidthUs > s.maxPulseWidthUs then s.maxPulseWidthUs else pulseWidthUs
  let v := toUint16 (round (f32 (s.timerTicks1us * (pw : ℚ))))
  obtain ⟨c, hc⟩ : ∃ c : Channel, c = s.outputPin.channel := ⟨_, rfl⟩
  have hv : v < 65536 := toUint16_lt _
  have h11 : r1.1 = { s with pulseWidthUs := pw } := setPulseWidth_fst s pulseWidthUs _
  have h12 : r1.2 = (timer16 p hw).setCompareValue c.mask v false := by
    rw [hc]
    exact setPulseWidth_snd s pulseWidthUs _
  have hhw1 := setCompareValue_timer16 p hw c v false hv
  rw [← h12] at hhw1
  have ht1 : r1.2 = timer16 p r1.2.hw := by
    rw [h12, setCompareValue_fields]
    rfl
  have h21 : r2.1 = r1.1 := by
    show (r1.1.setPulseWidth pulseWidthUs r1.2).1 = r1.1
    rw [setPulseWidth_fst, h11]
  have h22 : r2.2 = (timer16 p r1.2.hw).setCompareValue c.mask v false := by
    show (r1.1.setPulseWidth pulseWidthUs r1.2).2 = _
    rw [setPulseWidth_snd, h11, ← ht1, hc]
  have hhw2 := setCompareValue_timer16 p r1.2.hw c v false hv
  rw [← h22] at hhw2
  have hk : (2 : Nat) <<< c.comShift < 256 := by cases c <;> decide
  have hidem := or_mod_idem (hw.mem .TCCRnA) (2 <<< c.comShift) hk
  refine ⟨h21, ?_, ?_, ?_, ?_⟩
  · rw [hhw2, hhw1]
    funext x
    cases c <;> cases x <;> simp [Channel.regH, Channel.regL, Channel.comShift] <;>
      exact hidem
  · rw [hhw2, hhw1]
  · rw [hhw2, hhw1]
    simp only [List.drop_left, List.append_assoc, List.append_cancel_left_eq]
    cases c <;> simp [Channel.regH, Channel.regL, Channel.comShift] <;> exact hidem
  · rw [hhw1]
    simp

/-- C18 (the code at the failing input): for a servo constructed with the
bounds 35000 and 45000 the 16-bit sum `min + max` wraps to 14464 and the
constructor sets the middle to 7232, below the minimum; `setAngle(0)` then
stores the minimum 35000, not the middle. -/
theorem C18_setAngle_zero_misses_mid (q : TimerQueries) (F_CPU : Nat)
    (outputPin : ServoPin) (initUs : Nat) (t t2 : HardwareTimer) :
    let s := (HardwareServo.new q F_CPU outputPin 35000 45000 initUs t).1
    s.minPulseWidthUs = 35000 ∧ s.maxPulseWidthUs = 45000 ∧
    s.midPulseWidthUs = 7232 ∧
    (s.setAngle 0 t2).1.pulseWidthUs = 35000 := by
  intro s
  obtain ⟨h1, h2, h3, -, -, -, -⟩ := new_fields q F_CPU outputPin 35000 45000 initUs t
  have hlo : s.minPulseWidthUs = 35000 := by rw [h1]; decide
  have hhi : s.maxPulseWidthUs = 45000 := by rw [h2]; decide
  have hmid : s.midPulseWidthUs = 7232 := by rw [h3]; decide!
  refine ⟨hlo, hhi, hmid, ?_⟩
  have h0 : toUint16 (round (f32 ((0 : ℚ) * (s.microsPerDegree : ℚ)))) = 0 := by
    rw [zero_mul]
    decide!
  rw [setAngle_stored s 0 t2 (by norm_num) (by norm_num), hlo, hhi, hmid, h0]
  decide

/-- C19: for a servo with `min < max`, `setAngle` stores `min` for every angle
below -90 and `max` for every angle above 90, and `setPosition` stores `min`
for every percentage at or below 0 and `max` for every percentage above
100. -/
theorem C19_out_of_range_requests (s : HardwareServo) (t : HardwareTimer) (d p : ℚ)
    (hmm : s.minPulseWidthUs < s.maxPulseWidthUs) :
    (d < -90 → (s.setAngle d t).1.pulseWidthUs = s.minPulseWidthUs) ∧
    (d > 90 → (s.setAngle d t).1.pulseWidthUs = s.maxPulseWidthUs) ∧
    (p ≤ 0 → (s.setPosition p t).1.pulseWidthUs = s.minPulseWidthUs) ∧
    (p > 100 → (s.setPosition p t).1.pulseWidthUs = s.maxPulseWidthUs) := by
  have hmin : (s.setPulseWidth s.minPulseWidthUs t).1.pulseWidthUs = s.minPulseWidthUs := by
    rw [setPulseWidth_fst]
    have h1 : ¬ s.minPulseWidthUs > s.maxPulseWidthUs := by omega
    simp [h1]
  have hmax : (s.setPulseWidth s.maxPulseWidthUs t).1.pulseWidthUs = s.maxPulseWidthUs := by
    rw [setPulseWidth_fst]
    have h1 : ¬ s.maxPulseWidthUs < s.minPulseWidthUs := by omega
    simp [h1]
  refine ⟨?_, ?_, ?_, ?_⟩
  · intro h
    unfold HardwareServo.setAngle
    rw [if_pos h]
    exact hmin
  · intro h
    have h1 : ¬ d < -90 := by linarith
    unfold HardwareServo.setAngle
    rw [if_neg h1, if_pos h]
    exact hmax
  · intro h
    unfold HardwareServo.setPosition
    by_cases h0 : p < 0
    · rw [if_pos h0]
      exact hmin
    · have hp : p = 0 := le_antisymm h (not_lt.mp h0)
      have h100 : ¬ p > 100 := by rw [hp]; norm_num
      have hz : toUint16 (round (f32 ((0 : ℚ) * (s.microsPerPercent : ℚ)))) = 0 := by
        rw [zero_mul]
        decide!
      rw [if_neg h0, if_neg h100]
      simp only [hp, hz, setPulseWidth_fst]
      by_cases hm : 0 < s.minPulseWidthUs
      · simp [hm]
      · have e : s.minPulseWidthUs = 0 := by omega
        simp [e]
  · intro h
    have h1 : ¬ p < 0 := by linarith
    unfold HardwareServo.setPosition
    rw [if_neg h1, if_pos h]
    exact hmax

/-- C19 at the example servo: -120 degrees stores 1000, 95.5 degrees stores
2000, 0 percent stores 1000 and 150 percent stores 2000. -/
theorem C19_out_of_range_requests_witness :
    (exampleServo.setAngle (-120) (timer16 .TIMER_PRESCALE_8 Mcu.reset)).1.pulseWidthUs
      = 1000 ∧
    (exampleServo.setAngle (191 / 2) (timer16 .TIMER_PRESCALE_8 Mcu.reset)).1.pulseWidthUs
      = 2000 ∧
    (exampleServo.setPosition 0 (timer16 .TIMER_PRESCALE_8 Mcu.reset)).1.pulseWidthUs
      = 1000 ∧
    (exampleServo.setPosition 150 (timer16 .TIMER_PRESCALE_8 Mcu.reset)).1.pulseWidthUs
      = 2000 :=
  ⟨(C19_out_of_range_requests exampleServo (timer16 .TIMER_PRESCALE_8 Mcu.reset) (-120) 0
      (by decide)).1 (by norm_num),
    (C19_out_of_range_requests exampleServo (timer16 .TIMER_PRESCALE_8 Mcu.reset) (191 / 2) 0
      (by decide)).2.1 (by norm_num),
    (C19_out_of_range_requests exampleServo (timer16 .TIMER_PRESCALE_8 Mcu.reset) 0 0
      (by decide)).2.2.1 (by norm_num),
    (C19_out_of_range_requests exampleServo (timer16 .TIMER_PRESCALE_8 Mcu.reset) 0 150
      (by decide)).2.2.2 (by norm_num)⟩

theorem setFastPwmMode_fields (t : HardwareTimer) (top : Nat) :
    t.setFastPwmMode top = { t with hw := (t.setFastPwmMode top).hw } := by
  unfold HardwareTimer.setFastPwmMode HardwareTimer.resetTimerControl
  rfl

theorem setFastPwmMode_icr16 (p : TimerPrescaler) (hw : Mcu) (top : Nat)
    (htop : top < 65536) :
    ((timer16 p hw).setFastPwmMode top).hw.mem .ICRnH = top / 256 ∧
    ((timer16 p hw).setFastPwmMode top).hw.mem .ICRnL = top % 256 := by
  have h256 : top / 256 % 256 = top / 256 := by omega
  constructor <;>
  simp [HardwareTimer.setFastPwmMode, HardwareTimer.resetTimerControl, timer16, Timer1,
    HardwareTimer.new, __setWideReg, Mcu.store, Mcu.cli, bitSet, WGM11, WGM12, WGM13,
    highByte_eq top htop, lowByte_eq, h256]

/-- What the register queries report once a predefined 16-bit timer has been
put into fast-PWM mode with the prescaler `P` and the TOP value `top`. -/
theorem registerQueries_after_setup (p P : TimerPrescaler) (hw : Mcu) (top : Nat)
    (htop : top < 65536) :
    registerQueries.getMode (((timer16 p hw).setPrescaler P).setFastPwmMode top) =
      TimerMode.TIMER_MODE_FASTPWM ∧
    registerQueries.getPrescale (((timer16 p hw).setPrescaler P).setFastPwmMode top) = P ∧
    registerQueries.getTop (((timer16 p hw).setPrescaler P).setFastPwmMode top) = top := by
  have e : (timer16 p hw).setPrescaler P = timer16 P hw := by
    rw [setPrescaler_eq]
    rfl
  have hf : (timer16 P hw).setFastPwmMode top =
      timer16 P ((timer16 P hw).setFastPwmMode top).hw := by
    rw [setFastPwmMode_fields]
    rfl
  have hA := setFastPwmMode_tccrA16 P hw top
  have hB := setFastPwmMode_tccrB16 P hw top
  obtain ⟨hH, hL⟩ := setFastPwmMode_icr16 P hw top htop
  have hcs := clockSelectBits_le P
  rw [e, hf]
  generalize ((timer16 P hw).setFastPwmMode top).hw = X at hA hB hH hL
  refine ⟨?_, rfl, ?_⟩
  · have c2 : (24 + clockSelectBits P) % 256 / 8 % 4 = 3 := by omega
    simp [registerQueries, timer16, Timer1, HardwareTimer.new, Mcu.load, hA, hB, c2]
  · simp only [registerQueries, timer16, Timer1, HardwareTimer.new, Mcu.load, hH, hL, if_true]
    omega

/-- With the register queries a predefined 16-bit timer that
`__setupServoTimer` has left in the selected configuration is left alone. -/
theorem servoTimerAfter_idem (p P : TimerPrescaler) (hw : Mcu) (top : Nat)
    (htop : top < 65536) :
    servoTimerAfter registerQueries (servoTimerAfter registerQueries (timer16 p hw) P top)
        P top =
      servoTimerAfter registerQueries (timer16 p hw) P top := by
  by_cases hc : registerQueries.getMode (timer16 p hw) ≠ TimerMode.TIMER_MODE_FASTPWM ∨
      registerQueries.getPrescale (timer16 p hw) ≠ P ∨
      registerQueries.getTop (timer16 p hw) ≠ top
  · have e1 : servoTimerAfter registerQueries (timer16 p hw) P top =
        ((timer16 p hw).setPrescaler P).setFastPwmMode top := by
      unfold servoTimerAfter
      rw [if_pos hc]
    obtain ⟨m1, m2, m3⟩ := registerQueries_after_setup p P hw top htop
    rw [e1]
    unfold servoTimerAfter
    rw [if_neg]
    rw [m1, m2, m3]
    simp
  · have e1 : servoTimerAfter registerQueries (timer16 p hw) P top = timer16 p hw := by
      unfold servoTimerAfter
      rw [if_neg hc]
    rw [e1, e1]

/-- C20, with the state accessors modelled from the spec: on a predefined
16-bit timer in any state, a second run of `__setupServoTimer` for the same
clock returns the timer exactly as the first run left it, with its
registers, staged prescaler and sequence of stores, and the same tick
count. -/
theorem C20_setupServoTimer_twice (F_CPU : Nat) (p : TimerPrescaler) (hw : Mcu)
    (hF : F_CPU < 2 ^ 32) :
    __setupServoTimer registerQueries F_CPU
        (__setupServoTimer registerQueries F_CPU (some (timer16 p hw))).1 =
      __setupServoTimer registerQueries F_CPU (some (timer16 p hw)) := by
  rw [setupServoTimer_eq registerQueries F_CPU (timer16 p hw) hF]
  by_cases h1 : F_CPU / 400 > 0xFFFF
  · rw [if_pos h1]
    show __setupServoTimer registerQueries F_CPU (some _) = _
    rw [setupServoTimer_eq registerQueries F_CPU _ hF, if_pos h1,
      servoTimerAfter_idem p _ hw _ (Nat.mod_lt _ (by decide))]
  · rw [if_neg h1]
    by_cases h2 : F_CPU / 400 < 20000
    · rw [if_pos h2]
      show __setupServoTimer registerQueries F_CPU (some _) = _
      rw [setupServoTimer_eq registerQueries F_CPU _ hF, if_neg h1, if_pos h2,
        servoTimerAfter_idem p _ hw _ (Nat.mod_lt _ (by decide))]
    · rw [if_neg h2]
      show __setupServoTimer registerQueries F_CPU (some _) = _
      rw [setupServoTimer_eq registerQueries F_CPU _ hF, if_neg h1, if_neg h2,
        servoTimerAfter_idem p _ hw _ (by omega)]

/-- C20 at 16 MHz on a predefined 16-bit timer after reset: the first run
makes seven register stores, and the second run returns the same timer, so
that it makes none. -/
theorem C20_setupServoTimer_twice_witness :
    ((__setupServoTimer registerQueries 16000000 (some (Timer1 Mcu.reset))).1.map
        fun t => t.hw.trace.length) = some 7 ∧
    __setupServoTimer registerQueries 16000000
        (__setupServoTimer registerQueries 16000000 (some (Timer1 Mcu.reset))).1 =
      __setupServoTimer registerQueries 16000000 (some (Timer1 Mcu.reset)) :=
  ⟨by decide, C20_setupServoTimer_twice 16000000 .TIMER_PRESCALE_NONE Mcu.reset (by decide)⟩

/-- C21 (counterexample): on a predefined 16-bit timer after reset, where
global interrupts are enabled, `setCompareValue` for channel A stores the high
and the low byte of the compare register with interrupts enabled; only the
three control registers are stored with interrupts disabled. -/
theorem C21_compare_bytes_stored_with_interrupts_enabled :
    ((timer16 .TIMER_PRESCALE_8 Mcu.reset).setCompareValue TIMER_OCR_A 3000 false).hw.trace =
      [⟨.OCRnAH, 11, true⟩, ⟨.OCRnAL, 184, true⟩,
       ⟨.TCCRnA, 128, false⟩, ⟨.TCCRnC, 0, false⟩, ⟨.TCCRnB, 0, false⟩] ∧
    ¬ (∀ w ∈ ((timer16 .TIMER_PRESCALE_8 Mcu.reset).setCompareValue
        TIMER_OCR_A 3000 false).hw.trace, w.irq = false) := by
  have h : ((timer16 .TIMER_PRESCALE_8 Mcu.reset).setCompareValue
      TIMER_OCR_A 3000 false).hw.trace =
      [⟨.OCRnAH, 11, true⟩, ⟨.OCRnAL, 184, true⟩,
       ⟨.TCCRnA, 128, false⟩, ⟨.TCCRnC, 0, false⟩, ⟨.TCCRnB, 0, false⟩] := by
    decide!
  refine ⟨h, ?_⟩
  rw [h]
  intro hall
  exact absurd (hall ⟨.OCRnAH, 11, true⟩ (by simp)) (by decide)

theorem composedTccrA_bits : ∀ cur, cur < 256 → ∀ takeA takeB takeC inverting : Bool,
    composedTccrA cur takeA takeB takeC inverting < 256 ∧
    composedTccrA cur takeA takeB takeC inverting % 4 = cur % 4 ∧
    (takeA = false →
      (composedTccrA cur takeA takeB takeC inverting >>> COM0A0) % 4 = (cur >>> COM0A0) % 4) ∧
    (takeB = false →
      (composedTccrA cur takeA takeB takeC inverting >>> COM0B0) % 4 = (cur >>> COM0B0) % 4) ∧
    (takeC = false →
      (composedTccrA cur takeA takeB takeC inverting >>> COM1C0) % 4 = (cur >>> COM1C0) % 4) := by
  decide!

/-- On a predefined 16-bit timer `setCompareValue` is the compare-register
stores of the channels taken, followed by `resetTimerControl` with the
composed `TCCRnA` and the values read from `TCCRnB` and `TCCRnC`. -/
theorem setCompareValue_timer16_steps (p : TimerPrescaler) (hw : Mcu)
    (channels v : Nat) (inverting : Bool) :
    (timer16 p hw).setCompareValue channels v inverting =
      (timer16 p (compareStores16 (decide (channels &&& TIMER_OCR_A ≠ 0))
          (decide (channels &&& TIMER_OCR_B ≠ 0)) (decide (channels &&& TIMER_OCR_C ≠ 0))
          v hw)).resetTimerControl
        (composedTccrA (hw.load (some .TCCRnA)) (decide (channels &&& TIMER_OCR_A ≠ 0))
          (decide (channels &&& TIMER_OCR_B ≠ 0)) (decide (channels &&& TIMER_OCR_C ≠ 0))
          inverting)
        (hw.load (some .TCCRnB)) (hw.load (some .TCCRnC)) := by
  unfold HardwareTimer.setCompareValue
  generalize channels &&& TIMER_OCR_A = a
  generalize channels &&& TIMER_OCR_B = b
  generalize channels &&& TIMER_OCR_C = c
  have e2 : bitSet 0 1 % 256 = 2 := by decide
  have e3 : bitSet 2 0 % 256 = 3 := by decide
  by_cases hA : a = 0 <;> by_cases hB : b = 0 <;> by_cases hC : c = 0 <;>
  cases inverting <;>
  simp [hA, hB, hC, e2, e3, composedTccrA, compareStores16, timer16, Timer1,
    HardwareTimer.new]

/-- The same for a predefined 8-bit timer, where channel C is never taken. -/
theorem setCompareValue_timer8_steps (p : TimerPrescaler) (hw : Mcu)
    (channels v : Nat) (inverting : Bool) :
    (timer8 p hw).setCompareValue channels v inverting =
      (timer8 p (compareStores8 (decide (channels &&& TIMER_OCR_A ≠ 0))
          (decide (channels &&& TIMER_OCR_B ≠ 0)) v hw)).resetTimerControl
        (composedTccrA (hw.load (some .TCCRnA)) (decide (channels &&& TIMER_OCR_A ≠ 0))
          (decide (channels &&& TIMER_OCR_B ≠ 0)) false inverting)
        (hw.load (some .TCCRnB)) 0 := by
  unfold HardwareTimer.setCompareValue
  generalize channels &&& TIMER_OCR_A = a
  generalize channels &&& TIMER_OCR_B = b
  have e2 : bitSet 0 1 % 256 = 2 := by decide
  have e3 : bitSet 2 0 % 256 = 3 := by decide
  by_cases hA : a = 0 <;> by_cases hB : b = 0 <;>
  cases inverting <;>
  simp [hA, hB, e2, e3, composedTccrA, compareStores8, timer8, Timer0,
    HardwareTimer.new]

/-- The stores `setCompareValue` makes on a predefined 16-bit timer, for any
mask, in their order. -/
theorem setCompareValue_timer16_trace (p : TimerPrescaler) (hw : Mcu)
    (channels v : Nat) (inverting : Bool) :
    ((timer16 p hw).setCompareValue channels v inverting).hw.trace =
      hw.trace ++
      ((if channels &&& TIMER_OCR_A ≠ 0 then
          [⟨.OCRnAH, highByte v, hw.SREG.testBit 7⟩, ⟨.OCRnAL, lowByte v, hw.SREG.testBit 7⟩]
        else []) ++
       (if channels &&& TIMER_OCR_B ≠ 0 then
          [⟨.OCRnBH, highByte v, hw.SREG.testBit 7⟩, ⟨.OCRnBL, lowByte v, hw.SREG.testBit 7⟩]
        else []) ++
       (if channels &&& TIMER_OCR_C ≠ 0 then
          [⟨.OCRnCH, highByte v, hw.SREG.testBit 7⟩, ⟨.OCRnCL, lowByte v, hw.SREG.testBit 7⟩]
        else []) ++
       [⟨.TCCRnA,
          composedTccrA (hw.load (some .TCCRnA)) (decide (channels &&& TIMER_OCR_A ≠ 0))
            (decide (channels &&& TIMER_OCR_B ≠ 0)) (decide (channels &&& TIMER_OCR_C ≠ 0))
            inverting % 256, false⟩,
        ⟨.TCCRnC, hw.load (some .TCCRnC), false⟩,
        ⟨.TCCRnB, hw.load (some .TCCRnB), false⟩]) := by
  rw [setCompareValue_timer16_steps]
  generalize composedTccrA _ _ _ _ _ = a
  generalize channels &&& TIMER_OCR_A = x
  generalize channels &&& TIMER_OCR_B = y
  generalize channels &&& TIMER_OCR_C = z
  have hh : highByte v % 256 = highByte v := by unfold highByte; omega
  have hl : lowByte v % 256 = lowByte v := by unfold lowByte; omega
  by_cases hA : x = 0 <;> by_cases hB : y = 0 <;> by_cases hC : z = 0 <;>
  simp [hA, hB, hC, compareStores16, HardwareTimer.resetTimerControl, timer16, Timer1,
    HardwareTimer.new, Mcu.store, Mcu.cli, Mcu.load, __setWideReg, testBit_127_7, hh, hl]

/-- The same for a predefined 8-bit timer. -/
theorem setCompareValue_timer8_trace (p : TimerPrescaler) (hw : Mcu)
    (channels v : Nat) (inverting : Bool) :
    ((timer8 p hw).setCompareValue channels v inverting).hw.trace =
      hw.trace ++
      ((if channels &&& TIMER_OCR_A ≠ 0 then [⟨.OCRnAL, lowByte v, hw.SREG.testBit 7⟩]
        else []) ++
       (if channels &&& TIMER_OCR_B ≠ 0 then [⟨.OCRnBL, lowByte v, hw.SREG.testBit 7⟩]
        else []) ++
       [⟨.TCCRnA,
          composedTccrA (hw.load (some .TCCRnA)) (decide (channels &&& TIMER_OCR_A ≠ 0))
            (decide (channels &&& TIMER_OCR_B ≠ 0)) false inverting % 256, false⟩,
        ⟨.TCCRnB, hw.load (some .TCCRnB), false⟩]) := by
  rw [setCompareValue_timer8_steps]
  generalize composedTccrA _ _ _ _ _ = a
  generalize channels &&& TIMER_OCR_A = x
  generalize channels &&& TIMER_OCR_B = y
  have hl : lowByte v % 256 = lowByte v := by unfold lowByte; omega
  by_cases hA : x = 0 <;> by_cases hB : y = 0 <;>
  simp [hA, hB, compareStores8, HardwareTimer.resetTimerControl, timer8, Timer0,
    HardwareTimer.new, Mcu.store, Mcu.cli, Mcu.load, __setWideReg, testBit_127_7, hl]

/-- C21 (amended): the stores `setCompareValue` makes on a predefined timer in
any state, for any mask, are these, in this order.  First, for each requested
channel in turn (A, B, and on a 16-bit timer C), the high byte (on a 16-bit
timer) and the low byte of its compare register, each under the interrupt flag
the caller had on entry.  After them `TCCRnA`, `TCCRnC` (on a 16-bit timer) and
`TCCRnB`, each with global interrupts disabled.  Each of `setPulseWidth`,
`setAngle` and `setPosition` is one such call for the channel of the pin: two
compare bytes under the flag of the caller, then the three control registers
with interrupts disabled. -/
theorem C21_compare_bytes_precede_critical_section (s : HardwareServo)
    (p : TimerPrescaler) (hw : Mcu) (channels v pulseWidthUs : Nat) (inverting : Bool)
    (x : ℚ) :
    ((timer16 p hw).setCompareValue channels v inverting).hw.trace =
      hw.trace ++
      ((if channels &&& TIMER_OCR_A ≠ 0 then
          [⟨.OCRnAH, highByte v, hw.SREG.testBit 7⟩, ⟨.OCRnAL, lowByte v, hw.SREG.testBit 7⟩]
        else []) ++
       (if channels &&& TIMER_OCR_B ≠ 0 then
          [⟨.OCRnBH, highByte v, hw.SREG.testBit 7⟩, ⟨.OCRnBL, lowByte v, hw.SREG.testBit 7⟩]
        else []) ++
       (if channels &&& TIMER_OCR_C ≠ 0 then
          [⟨.OCRnCH, highByte v, hw.SREG.testBit 7⟩, ⟨.OCRnCL, lowByte v, hw.SREG.testBit 7⟩]
        else []) ++
       [⟨.TCCRnA,
          composedTccrA (hw.load (some .TCCRnA)) (decide (channels &&& TIMER_OCR_A ≠ 0))
            (decide (channels &&& TIMER_OCR_B ≠ 0)) (decide (channels &&& TIMER_OCR_C ≠ 0))
            inverting, false⟩,
        ⟨.TCCRnC, hw.load (some .TCCRnC), false⟩,
        ⟨.TCCRnB, hw.load (some .TCCRnB), false⟩]) ∧
    ((timer8 p hw).setCompareValue channels v inverting).hw.trace =
      hw.trace ++
      ((if channels &&& TIMER_OCR_A ≠ 0 then [⟨.OCRnAL, lowByte v, hw.SREG.testBit 7⟩]
        else []) ++
       (if channels &&& TIMER_OCR_B ≠ 0 then [⟨.OCRnBL, lowByte v, hw.SREG.testBit 7⟩]
        else []) ++
       [⟨.TCCRnA,
          composedTccrA (hw.load (some .TCCRnA)) (decide (channels &&& TIMER_OCR_A ≠ 0))
            (decide (channels &&& TIMER_OCR_B ≠ 0)) false inverting, false⟩,
        ⟨.TCCRnB, hw.load (some .TCCRnB), false⟩]) ∧
    (∀ r ∈ [s.setPulseWidth pulseWidthUs (timer16 p hw), s.setAngle x (timer16 p hw),
        s.setPosition x (timer16 p hw)],
      ∃ w, w < 65536 ∧
        r.2 = (timer16 p hw).setCompareValue s.outputPin.channel.mask w false ∧
        r.2.hw.trace = hw.trace ++
          [⟨s.outputPin.channel.regH, w / 256, hw.SREG.testBit 7⟩,
           ⟨s.outputPin.channel.regL, w % 256, hw.SREG.testBit 7⟩,
           ⟨.TCCRnA,
             (hw.load (some .TCCRnA) ||| 2 <<< s.outputPin.channel.comShift) % 256, false⟩,
           ⟨.TCCRnC, hw.load (some .TCCRnC), false⟩,
           ⟨.TCCRnB, hw.load (some .TCCRnB), false⟩]) := by
  have hload : hw.load (some .TCCRnA) < 256 := by unfold Mcu.load; exact Nat.mod_lt _ (by decide)
  have key : ∀ n : Nat, ∃ w, w < 65536 ∧
      (s.setPulseWidth n (timer16 p hw)).2 =
        (timer16 p hw).setCompareValue s.outputPin.channel.mask w false ∧
      (s.setPulseWidth n (timer16 p hw)).2.hw.trace = hw.trace ++
        [⟨s.outputPin.channel.regH, w / 256, hw.SREG.testBit 7⟩,
         ⟨s.outputPin.channel.regL, w % 256, hw.SREG.testBit 7⟩,
         ⟨.TCCRnA,
           (hw.load (some .TCCRnA) ||| 2 <<< s.outputPin.channel.comShift) % 256, false⟩,
         ⟨.TCCRnC, hw.load (some .TCCRnC), false⟩,
         ⟨.TCCRnB, hw.load (some .TCCRnB), false⟩] := by
    intro n
    refine ⟨_, toUint16_lt _, setPulseWidth_snd s n _, ?_⟩
    rw [setPulseWidth_snd, setCompareValue_timer16 p hw _ _ false (toUint16_lt _)]
    simp [Mcu.load]
  refine ⟨?_, ?_, ?_⟩
  · rw [setCompareValue_timer16_trace,
      Nat.mod_eq_of_lt (composedTccrA_bits _ hload _ _ _ _).1]
  · rw [setCompareValue_timer8_trace,
      Nat.mod_eq_of_lt (composedTccrA_bits _ hload _ _ _ _).1]
  · intro r hr
    simp only [List.mem_cons, List.mem_singleton, List.not_mem_nil, or_false] at hr
    rcases hr with rfl | rfl | rfl
    · exact key _
    · unfold HardwareServo.setAngle
      split_ifs <;> exact key _
    · unfold HardwareServo.setPosition
      split_ifs <;> exact key _

/-- C21 (amended) at an 8-bit timer after reset, where interrupts are enabled:
`setCompareValue` for the channels A and B with the value 300 stores the low
byte 44 to both compare registers with interrupts enabled, and then `TCCRnA`
and `TCCRnB` with interrupts disabled. -/
theorem C21_compare_bytes_precede_critical_section_witness :
    ((timer8 .TIMER_PRESCALE_64 Mcu.reset).setCompareValue 3 300 true).hw.trace =
      [⟨.OCRnAL, 44, true⟩, ⟨.OCRnBL, 44, true⟩,
       ⟨.TCCRnA, 240, false⟩, ⟨.TCCRnB, 0, false⟩] :=
  (C21_compare_bytes_precede_critical_section exampleServo .TIMER_PRESCALE_64
    Mcu.reset 3 300 1500 true 0).2.1

theorem resetTimerControl_timer16_mem (p : TimerPrescaler) (hw : Mcu) (a b c : Nat)
    (r : Reg) :
    ((timer16 p hw).resetTimerControl a b c).hw.mem r =
      if r = .TCCRnB then b % 256 else if r = .TCCRnC then c % 256
      else if r = .TCCRnA then a % 256 else hw.mem r := by
  simp [HardwareTimer.resetTimerControl, timer16, Timer1, HardwareTimer.new, Mcu.store,
    Mcu.cli]

theorem resetTimerControl_timer8_mem (p : TimerPrescaler) (hw : Mcu) (a b c : Nat)
    (r : Reg) :
    ((timer8 p hw).resetTimerControl a b c).hw.mem r =
      if r = .TCCRnB then b % 256 else if r = .TCCRnA then a % 256 else hw.mem r := by
  simp [HardwareTimer.resetTimerControl, timer8, Timer0, HardwareTimer.new, Mcu.store,
    Mcu.cli]

theorem setWideReg_mem (H L : Reg) (v : Nat) (hw : Mcu) (r : Reg) :
    (__setWideReg (some H) (some L) v hw).mem r =
      if r = L then lowByte v % 256 else if r = H then highByte v % 256 else hw.mem r := by
  simp [__setWideReg, Mcu.store]

theorem setWideReg_low_mem (L : Reg) (v : Nat) (hw : Mcu) (r : Reg) :
    (__setWideReg none (some L) v hw).mem r =
      if r = L then lowByte v % 256 else hw.mem r := by
  simp [__setWideReg, Mcu.store]

/-- The compare-register stores leave every other register, and the compare
registers of the channels not taken, as they were. -/
theorem compareStores16_frame (takeA takeB takeC : Bool) (v : Nat) (hw : Mcu) :
    (∀ r : Reg, r.isCompare = false → (compareStores16 takeA takeB takeC v hw).mem r =
      hw.mem r) ∧
    (takeA = false →
      (compareStores16 takeA takeB takeC v hw).mem .OCRnAH = hw.mem .OCRnAH ∧
      (compareStores16 takeA takeB takeC v hw).mem .OCRnAL = hw.mem .OCRnAL) ∧
    (takeB = false →
      (compareStores16 takeA takeB takeC v hw).mem .OCRnBH = hw.mem .OCRnBH ∧
      (compareStores16 takeA takeB takeC v hw).mem .OCRnBL = hw.mem .OCRnBL) ∧
    (takeC = false →
      (compareStores16 takeA takeB takeC v hw).mem .OCRnCH = hw.mem .OCRnCH ∧
      (compareStores16 takeA takeB takeC v hw).mem .OCRnCL = hw.mem .OCRnCL) := by
  refine ⟨?_, ?_, ?_, ?_⟩
  · intro r hr
    have n1 : r ≠ .OCRnAH := by rintro rfl; exact absurd hr (by decide)
    have n2 : r ≠ .OCRnAL := by rintro rfl; exact absurd hr (by decide)
    have n3 : r ≠ .OCRnBH := by rintro rfl; exact absurd hr (by decide)
    have n4 : r ≠ .OCRnBL := by rintro rfl; exact absurd hr (by decide)
    have n5 : r ≠ .OCRnCH := by rintro rfl; exact absurd hr (by decide)
    have n6 : r ≠ .OCRnCL := by rintro rfl; exact absurd hr (by decide)
    cases takeA <;> cases takeB <;> cases takeC <;>
    simp [compareStores16, setWideReg_mem, n1, n2, n3, n4, n5, n6]
  · intro h
    subst h
    cases takeB <;> cases takeC <;> simp [compareStores16, setWideReg_mem]
  · intro h
    subst h
    cases takeA <;> cases takeC <;> simp [compareStores16, setWideReg_mem]
  · intro h
    subst h
    cases takeA <;> cases takeB <;> simp [compareStores16, setWideReg_mem]

/-- The same for the compare-register stores on an 8-bit timer, which store to
no high-byte register and to no register of channel C. -/
theorem compareStores8_frame (takeA takeB : Bool) (v : Nat) (hw : Mcu) :
    (∀ r : Reg, r ≠ .OCRnAL → r ≠ .OCRnBL → (compareStores8 takeA takeB v hw).mem r =
      hw.mem r) ∧
    (takeA = false → (compareStores8 takeA takeB v hw).mem .OCRnAL = hw.mem .OCRnAL) ∧
    (takeB = false → (compareStores8 takeA takeB v hw).mem .OCRnBL = hw.mem .OCRnBL) := by
  refine ⟨?_, ?_, ?_⟩
  · intro r h1 h2
    cases takeA <;> cases takeB <;>
    simp [compareStores8, setWideReg_low_mem, h1, h2]
  · intro h
    subst h
    cases takeB <;> simp [compareStores8, setWideReg_low_mem]
  · intro h
    subst h
    cases takeA <;> simp [compareStores8, setWideReg_low_mem]

/-- C22: `setCompareValue`, on a predefined 16-bit or 8-bit timer in any state
and for any mask, leaves the value read from every register other than
`TCCRnA` and the compare registers as it was (`TCCRnB`, `TCCRnC`, the counter,
the capture register); in `TCCRnA` the waveform-generation bits 1:0 keep their
value; and for every channel not requested (on an 8-bit timer also for channel
C when requested) the compare register bytes and the two compare-output-mode
bits keep their value. -/
theorem C22_setCompareValue_frame (p : TimerPrescaler) (hw : Mcu)
    (channels v : Nat) (inverting : Bool) :
    let h16 := ((timer16 p hw).setCompareValue channels v inverting).hw
    let h8 := ((timer8 p hw).setCompareValue channels v inverting).hw
    ((∀ r : Reg, r.isCompare = false → r ≠ .TCCRnA →
        h16.load (some r) = hw.load (some r)) ∧
      h16.load (some .TCCRnA) % 4 = hw.load (some .TCCRnA) % 4 ∧
      (∀ c : Channel, channels &&& c.mask = 0 →
        h16.load (some c.regH) = hw.load (some c.regH) ∧
        h16.load (some c.regL) = hw.load (some c.regL) ∧
        (h16.load (some .TCCRnA) >>> c.comShift) % 4 =
          (hw.load (some .TCCRnA) >>> c.comShift) % 4)) ∧
    ((∀ r : Reg, r.isCompare = false → r ≠ .TCCRnA →
        h8.load (some r) = hw.load (some r)) ∧
      h8.load (some .TCCRnA) % 4 = hw.load (some .TCCRnA) % 4 ∧
      (∀ c : Channel, c = .C ∨ channels &&& c.mask = 0 →
        h8.load (some c.regH) = hw.load (some c.regH) ∧
        h8.load (some c.regL) = hw.load (some c.regL) ∧
        (h8.load (some .TCCRnA) >>> c.comShift) % 4 =
          (hw.load (some .TCCRnA) >>> c.comShift) % 4)) := by
  intro h16 h8
  have hcur : hw.load (some .TCCRnA) < 256 := Nat.mod_lt _ (by decide)
  -- the 16-bit timer
  have e16 : ∀ r : Reg, h16.mem r = _ := fun r => by
    show ((timer16 p hw).setCompareValue channels v inverting).hw.mem r = _
    rw [setCompareValue_timer16_steps, resetTimerControl_timer16_mem]
  obtain ⟨f1, fA, fB, fC⟩ := compareStores16_frame (decide (channels &&& TIMER_OCR_A ≠ 0))
    (decide (channels &&& TIMER_OCR_B ≠ 0)) (decide (channels &&& TIMER_OCR_C ≠ 0)) v hw
  obtain ⟨b0, b1, bA, bB, bC⟩ := composedTccrA_bits _ hcur
    (decide (channels &&& TIMER_OCR_A ≠ 0)) (decide (channels &&& TIMER_OCR_B ≠ 0))
    (decide (channels &&& TIMER_OCR_C ≠ 0)) inverting
  have a16 : h16.load (some .TCCRnA) = composedTccrA (hw.load (some .TCCRnA))
      (decide (channels &&& TIMER_OCR_A ≠ 0)) (decide (channels &&& TIMER_OCR_B ≠ 0))
      (decide (channels &&& TIMER_OCR_C ≠ 0)) inverting := by
    show h16.mem .TCCRnA % 256 = _
    rw [e16]
    simp only [reduceCtorEq, if_false, if_true]
    omega
  -- the 8-bit timer
  have e8 : ∀ r : Reg, h8.mem r = _ := fun r => by
    show ((timer8 p hw).setCompareValue channels v inverting).hw.mem r = _
    rw [setCompareValue_timer8_steps, resetTimerControl_timer8_mem]
  obtain ⟨g1, gA, gB⟩ := compareStores8_frame (decide (channels &&& TIMER_OCR_A ≠ 0))
    (decide (channels &&& TIMER_OCR_B ≠ 0)) v hw
  obtain ⟨c0, c1, cA, cB, cC⟩ := composedTccrA_bits _ hcur
    (decide (channels &&& TIMER_OCR_A ≠ 0)) (decide (channels &&& TIMER_OCR_B ≠ 0))
    false inverting
  have a8 : h8.load (some .TCCRnA) = composedTccrA (hw.load (some .TCCRnA))
      (decide (channels &&& TIMER_OCR_A ≠ 0)) (decide (channels &&& TIMER_OCR_B ≠ 0))
      false inverting := by
    show h8.mem .TCCRnA % 256 = _
    rw [e8]
    simp only [reduceCtorEq, if_false, if_true]
    omega
  refine ⟨⟨?_, ?_, ?_⟩, ⟨?_, ?_, ?_⟩⟩
  · intro r hr hA
    show h16.mem r % 256 = hw.mem r % 256
    rw [e16]
    by_cases hB : r = .TCCRnB
    · subst hB
      simp [Mcu.load]
    · by_cases hC : r = .TCCRnC
      · subst hC
        simp [Mcu.load]
      · simp only [hA, hB, hC, if_false]
        rw [f1 r hr]
  · rw [a16]
    exact b1
  · intro c hc
    have hreg : ∀ r : Reg, r.isCompare = true →
        h16.load (some r) = (compareStores16 (decide (channels &&& TIMER_OCR_A ≠ 0))
          (decide (channels &&& TIMER_OCR_B ≠ 0)) (decide (channels &&& TIMER_OCR_C ≠ 0))
          v hw).mem r % 256 := by
      intro r hr
      show h16.mem r % 256 = _
      rw [e16]
      cases r <;> first | rfl | exact absurd hr (by decide)
    rw [a16]
    cases c
    · have hf : decide (channels &&& TIMER_OCR_A ≠ 0) = false := by
        have : channels &&& TIMER_OCR_A = 0 := hc
        simp [this]
      exact ⟨(hreg .OCRnAH rfl).trans (congrArg (· % 256) (fA hf).1),
        (hreg .OCRnAL rfl).trans (congrArg (· % 256) (fA hf).2), bA hf⟩
    · have hf : decide (channels &&& TIMER_OCR_B ≠ 0) = false := by
        have : channels &&& TIMER_OCR_B = 0 := hc
        simp [this]
      exact ⟨(hreg .OCRnBH rfl).trans (congrArg (· % 256) (fB hf).1),
        (hreg .OCRnBL rfl).trans (congrArg (· % 256) (fB hf).2), bB hf⟩
    · have hf : decide (channels &&& TIMER_OCR_C ≠ 0) = false := by
        have : channels &&& TIMER_OCR_C = 0 := hc
        simp [this]
      exact ⟨(hreg .OCRnCH rfl).trans (congrArg (· % 256) (fC hf).1),
        (hreg .OCRnCL rfl).trans (congrArg (· % 256) (fC hf).2), bC hf⟩
  · intro r hr hA
    show h8.mem r % 256 = hw.mem r % 256
    rw [e8]
    by_cases hB : r = .TCCRnB
    · subst hB
      simp [Mcu.load]
    · simp only [hA, hB, if_false]
      rw [g1 r (by rintro rfl; exact absurd hr (by decide))
        (by rintro rfl; exact absurd hr (by decide))]
  · rw [a8]
    exact c1
  · intro c hc
    have hreg : ∀ r : Reg, r.isCompare = true →
        h8.load (some r) = (compareStores8 (decide (channels &&& TIMER_OCR_A ≠ 0))
          (decide (channels &&& TIMER_OCR_B ≠ 0)) v hw).mem r % 256 := by
      intro r hr
      show h8.mem r % 256 = _
      rw [e8]
      cases r <;> first | rfl | exact absurd hr (by decide)
    rw [a8]
    cases c
    · have hf : decide (channels &&& TIMER_OCR_A ≠ 0) = false := by
        rcases hc with hc | hc
        · exact absurd hc (by decide)
        · have : channels &&& TIMER_OCR_A = 0 := hc
          simp [this]
      exact ⟨(hreg .OCRnAH rfl).trans (congrArg (· % 256) (g1 .OCRnAH (by decide) (by decide))),
        (hreg .OCRnAL rfl).trans (congrArg (· % 256) (gA hf)), cA hf⟩
    · have hf : decide (channels &&& TIMER_OCR_B ≠ 0) = false := by
        rcases hc with hc | hc
        · exact absurd hc (by decide)
        · have : channels &&& TIMER_OCR_B = 0 := hc
          simp [this]
      exact ⟨(hreg .OCRnBH rfl).trans (congrArg (· % 256) (g1 .OCRnBH (by decide) (by decide))),
        (hreg .OCRnBL rfl).trans (congrArg (· % 256) (gB hf)), cB hf⟩
    · exact ⟨(hreg .OCRnCH rfl).trans (congrArg (· % 256) (g1 .OCRnCH (by decide) (by decide))),
        (hreg .OCRnCL rfl).trans (congrArg (· % 256) (g1 .OCRnCL (by decide) (by decide))),
        cC rfl⟩

/-- C22 at a 16-bit timer after reset and a request for channel A: the compare
register of channel B and its compare-output-mode bits keep their value, and
on an 8-bit timer a request for channel C leaves the registers of channel C as
they were. -/
theorem C22_setCompareValue_frame_witness :
    (((timer16 .TIMER_PRESCALE_8 Mcu.reset).setCompareValue TIMER_OCR_A 3000 false).hw.load
        (some .OCRnBH) = Mcu.reset.load (some .OCRnBH) ∧
      ((timer16 .TIMER_PRESCALE_8 Mcu.reset).setCompareValue TIMER_OCR_A 3000 false).hw.load
        (some .OCRnBL) = Mcu.reset.load (some .OCRnBL) ∧
      (((timer16 .TIMER_PRESCALE_8 Mcu.reset).setCompareValue TIMER_OCR_A 3000 false).hw.load
        (some .TCCRnA) >>> COM0B0) % 4 = (Mcu.reset.load (some .TCCRnA) >>> COM0B0) % 4) ∧
    ((timer8 .TIMER_PRESCALE_8 Mcu.reset).setCompareValue TIMER_OCR_C 3000 false).hw.load
        (some .OCRnCL) = Mcu.reset.load (some .OCRnCL) :=
  ⟨(C22_setCompareValue_frame .TIMER_PRESCALE_8 Mcu.reset TIMER_OCR_A 3000 false).1.2.2 .B
      (by decide),
    ((C22_setCompareValue_frame .TIMER_PRESCALE_8 Mcu.reset TIMER_OCR_C 3000 false).2.2.2 .C
      (Or.inl rfl)).2.1⟩

/-- C23 (the code at the failing input): for a servo constructed with the
bounds 0 and 100, `setAngle(-90)` stores 100 and `setAngle(0)` stores 50: the
smaller angle stores the larger pulse width, because the 16-bit sum 50 - 90
wraps to 65496. -/
theorem C23_setAngle_not_monotone (q : TimerQueries) (F_CPU : Nat)
    (outputPin : ServoPin) (initUs : Nat) (t t2 : HardwareTimer) :
    let s := (HardwareServo.new q F_CPU outputPin 0 100 initUs t).1
    s.minPulseWidthUs = 0 ∧ s.maxPulseWidthUs = 100 ∧
    (s.setAngle (-90) t2).1.pulseWidthUs = 100 ∧
    (s.setAngle 0 t2).1.pulseWidthUs = 50 ∧
    ¬ ((s.setAngle (-90) t2).1.pulseWidthUs ≤ (s.setAngle 0 t2).1.pulseWidthUs) := by
  intro s
  obtain ⟨h1, h2, h3, h4, -, -, -⟩ := new_fields q F_CPU outputPin 0 100 initUs t
  have hlo : s.minPulseWidthUs = 0 := by rw [h1]; decide
  have hhi : s.maxPulseWidthUs = 100 := by rw [h2]; decide
  have hmid : s.midPulseWidthUs = 50 := by rw [h3]; decide!
  have hpd : s.microsPerDegree = 1 := by rw [h4]; decide!
  have ha : (s.setAngle (-90) t2).1.pulseWidthUs = 100 := by
    rw [setAngle_stored s (-90) t2 (by norm_num) (by norm_num), hlo, hhi, hmid, hpd]
    decide!
  have hb : (s.setAngle 0 t2).1.pulseWidthUs = 50 := by
    rw [setAngle_stored s 0 t2 (by norm_num) (by norm_num), hlo, hhi, hmid, hpd]
    decide!
  refine ⟨hlo, hhi, ha, hb, ?_⟩
  rw [ha, hb]
  decide

/-- C24 (the code at the failing input): the constructor stores `initUs` as
the current pulse width as given: with the bounds 1000 and 2000 and
`initUs = 5000` the stored pulse width after construction is 5000, above the
maximum. -/
theorem C24_constructor_stores_initUs_unclamped (q : TimerQueries) (F_CPU : Nat)
    (outputPin : ServoPin) (t : HardwareTimer) :
    (HardwareServo.new q F_CPU outputPin 1000 2000 5000 t).1.pulseWidthUs = 5000 ∧
    (HardwareServo.new q F_CPU outputPin 1000 2000 5000 t).1.maxPulseWidthUs = 2000 ∧
    ¬ ((HardwareServo.new q F_CPU outputPin 1000 2000 5000 t).1.pulseWidthUs ≤
      (HardwareServo.new q F_CPU outputPin 1000 2000 5000 t).1.maxPulseWidthUs) := by
  obtain ⟨-, h2, -, -, -, h6, -⟩ := new_fields q F_CPU outputPin 1000 2000 5000 t
  have hhi : (HardwareServo.new q F_CPU outputPin 1000 2000 5000 t).1.maxPulseWidthUs
      = 2000 := by rw [h2]; decide
  refine ⟨h6, hhi, ?_⟩
  rw [h6, hhi]
  decide

/-- Every one of `setPulseWidth`, `setAngle` and `setPosition` leaves the
bounds as they are and, for a servo with `min <= max`, a stored pulse width
within them. -/
theorem set_calls_store_within_bounds (s : HardwareServo) (t : HardwareTimer)
    (pulseWidthUs : Nat) (x : ℚ) (hmm : s.minPulseWidthUs ≤ s.maxPulseWidthUs) :
    (∀ r ∈ [s.setPulseWidth pulseWidthUs t, s.setAngle x t, s.setPosition x t],
      r.1.minPulseWidthUs = s.minPulseWidthUs ∧ r.1.maxPulseWidthUs = s.maxPulseWidthUs ∧
      s.minPulseWidthUs ≤ r.1.pulseWidthUs ∧ r.1.pulseWidthUs ≤ s.maxPulseWidthUs) := by
  have key : ∀ n : Nat,
      (s.setPulseWidth n t).1.minPulseWidthUs = s.minPulseWidthUs ∧
      (s.setPulseWidth n t).1.maxPulseWidthUs = s.maxPulseWidthUs ∧
      s.minPulseWidthUs ≤ (s.setPulseWidth n t).1.pulseWidthUs ∧
      (s.setPulseWidth n t).1.pulseWidthUs ≤ s.maxPulseWidthUs := by
    intro n
    rw [setPulseWidth_fst]
    refine ⟨rfl, rfl, ?_, ?_⟩
    · show s.minPulseWidthUs ≤ if n < s.minPulseWidthUs then s.minPulseWidthUs
        else if n > s.maxPulseWidthUs then s.maxPulseWidthUs else n
      split_ifs <;> omega
    · show (if n < s.minPulseWidthUs then s.minPulseWidthUs
        else if n > s.maxPulseWidthUs then s.maxPulseWidthUs else n) ≤ s.maxPulseWidthUs
      split_ifs <;> omega
  intro r hr
  simp only [List.mem_cons, List.mem_singleton, List.not_mem_nil, or_false] at hr
  rcases hr with rfl | rfl | rfl
  · exact key _
  · unfold HardwareServo.setAngle
    split_ifs <;> exact key _
  · unfold HardwareServo.setPosition
    split_ifs <;> exact key _

/-- The macro `round` on the binary32 rounding of a value between 0 and
`T + 3 / 1000`, for a 16-bit `T`, gives an integer between 0 and `T`. -/
theorem round_f32_bounds (x : ℚ) (T : Nat) (hT : T < 65536) (h0 : 0 ≤ x)
    (hx : x ≤ (T : ℚ) + 3 / 1000) :
    0 ≤ round (f32 x) ∧ round (f32 x) ≤ T := by
  have hT' : (T : ℚ) ≤ 65535 := by exact_mod_cast Nat.le_of_lt_succ hT
  have y0 : 0 ≤ f32 x := f32_nonneg x h0
  have e1 := f32_error16 x (by rw [abs_of_nonneg h0]; linarith)
  rw [abs_le] at e1
  have y1 : 0 ≤ f32 x + 1 / 2 := by linarith
  have e2 := f32_error16 (f32 x + 1 / 2) (by
    rw [abs_of_nonneg y1]; norm_num at e1 ⊢; linarith)
  rw [abs_le] at e2
  have z0 : 0 ≤ f32 (f32 x + 1 / 2) := f32_nonneg _ y1
  unfold round
  rw [if_pos y0, toLong_eq, if_pos z0]
  constructor
  · exact Int.floor_nonneg.mpr z0
  · have h : ⌊f32 (f32 x + 1 / 2)⌋ < (T : ℤ) + 1 := by
      rw [Int.floor_lt]
      push_cast
      norm_num at e1 e2 ⊢
      linarith
    omega

/-- The float product of the ticks per microsecond for a 16-bit tick count `T`
and a width of at most 20000 is between 0 and `T + 3 / 1000`. -/
theorem ticks_product_bounds (T pw : Nat) (hT : T < 65536) (hpw : pw ≤ 20000) :
    0 ≤ __ticksPerMicroS T * (pw : ℚ) ∧
    __ticksPerMicroS T * (pw : ℚ) ≤ (T : ℚ) + 3 / 1000 := by
  have hT' : (T : ℚ) ≤ 65535 := by exact_mod_cast Nat.le_of_lt_succ hT
  have hT0 : (0 : ℚ) ≤ (T : ℚ) := by positivity
  have hq0 : (0 : ℚ) ≤ (T : ℚ) / 20000 := by positivity
  have hp0 : (0 : ℚ) ≤ (pw : ℚ) := by positivity
  have hp1 : (pw : ℚ) ≤ 20000 := by exact_mod_cast hpw
  have t0 : 0 ≤ __ticksPerMicroS T := f32_nonneg _ hq0
  have e := f32_error4 ((T : ℚ) / 20000) (by rw [abs_of_nonneg hq0]; linarith)
  rw [abs_le] at e
  have e' : __ticksPerMicroS T ≤ (T : ℚ) / 20000 + 1 / 2 ^ 23 := by
    unfold __ticksPerMicroS; linarith
  constructor
  · exact mul_nonneg t0 hp0
  · calc __ticksPerMicroS T * (pw : ℚ)
        ≤ ((T : ℚ) / 20000 + 1 / 2 ^ 23) * (pw : ℚ) := mul_le_mul_of_nonneg_right e' hp0
      _ ≤ ((T : ℚ) / 20000 + 1 / 2 ^ 23) * 20000 :=
          mul_le_mul_of_nonneg_left hp1 (by positivity)
      _ ≤ (T : ℚ) + 3 / 1000 := by norm_num; linarith

/-- C25: for a servo with `min <= max <= 20000` whose ticks per microsecond
are `T / 20000` for a 16-bit tick count `T`, be it the float quotient the code
computes or the quotient itself, on a predefined 16-bit timer in any state,
the compare register of the pin's channel after `setPulseWidth` holds the value
the macro `round` gives for the float product of the ticks per microsecond and
the clamped width, itself, with no reduction modulo `2 ^ 16`, and this value
is at most `T`. -/
theorem C25_compare_value_within_period (s : HardwareServo) (p : TimerPrescaler)
    (hw : Mcu) (pulseWidthUs T : Nat) (hT : T < 65536)
    (htpu : s.timerTicks1us = __ticksPerMicroS T ∨ s.timerTicks1us = (T : ℚ) / 20000)
    (hmax : s.maxPulseWidthUs ≤ 20000)
    (hmm : s.minPulseWidthUs ≤ s.maxPulseWidthUs) :
    (((s.setPulseWidth pulseWidthUs (timer16 p hw)).2.hw.compare s.outputPin.channel : Nat)
        : ℤ) =
      round (f32 (s.timerTicks1us *
        ((clampTo s.minPulseWidthUs s.maxPulseWidthUs pulseWidthUs : Nat) : ℚ))) ∧
    (s.setPulseWidth pulseWidthUs (timer16 p hw)).2.hw.compare s.outputPin.channel ≤ T := by
  have hpw := clampTo_eq s.minPulseWidthUs s.maxPulseWidthUs pulseWidthUs hmm
  have hle : clampTo s.minPulseWidthUs s.maxPulseWidthUs pulseWidthUs ≤ 20000 := by
    rw [hpw]
    split_ifs <;> omega
  generalize clampTo s.minPulseWidthUs s.maxPulseWidthUs pulseWidthUs = pw at hpw hle
  -- the float product lies between 0 and T + 3 / 1000
  have hb : 0 ≤ s.timerTicks1us * (pw : ℚ) ∧
      s.timerTicks1us * (pw : ℚ) ≤ (T : ℚ) + 3 / 1000 := by
    rcases htpu with h | h
    · rw [h]
      exact ticks_product_bounds T pw hT hle
    · rw [h]
      have h1 : (pw : ℚ) ≤ 20000 := by exact_mod_cast hle
      have h2 : (0 : ℚ) ≤ (T : ℚ) := by positivity
      have h3 : (0 : ℚ) ≤ (pw : ℚ) := by positivity
      constructor
      · positivity
      · have : (T : ℚ) / 20000 * (pw : ℚ) ≤ (T : ℚ) / 20000 * 20000 :=
          mul_le_mul_of_nonneg_left h1 (by positivity)
        linarith
  obtain ⟨hx0, hxT⟩ := hb
  obtain ⟨r0, rT⟩ := round_f32_bounds _ T hT hx0 hxT
  -- the value written
  have hv16 : toUint16 (round (f32 (s.timerTicks1us * (pw : ℚ)))) =
      (round (f32 (s.timerTicks1us * (pw : ℚ)))).toNat := by
    unfold toUint16
    omega
  have hc : s.outputPin.channel.mask &&& s.outputPin.channel.mask ≠ 0 := by
    cases s.outputPin.channel <;> decide
  have hcmp : (s.setPulseWidth pulseWidthUs (timer16 p hw)).2.hw.compare s.outputPin.channel =
      (round (f32 (s.timerTicks1us * (pw : ℚ)))).toNat := by
    rw [setPulseWidth_snd, ← hpw]
    obtain ⟨hH, hL⟩ := setCompareValue_timer16_bytes p hw s.outputPin.channel.mask
      (toUint16 (round (f32 (s.timerTicks1us * (pw : ℚ))))) false s.outputPin.channel
      (toUint16_lt _) hc
    unfold Mcu.compare Mcu.load
    simp only [hH, hL]
    have := toUint16_lt (round (f32 (s.timerTicks1us * (pw : ℚ))))
    omega
  rw [hcmp]
  constructor
  · exact Int.toNat_of_nonneg r0
  · omega

/-- C25 at a servo with the bounds 0 and 20000 whose ticks per microsecond are
those of the tick count 36864, the binary32 value 7730941 / 4194304: a request
of 65535, clamped to 20000, leaves at most 36864 in the compare register. -/
theorem C25_compare_value_within_period_witness :
    (({ exampleServo with timerTicks1us := __ticksPerMicroS 36864,
                          minPulseWidthUs := 0, maxPulseWidthUs := 20000
       } : HardwareServo).setPulseWidth 65535
        (timer16 .TIMER_PRESCALE_8 Mcu.reset)).2.hw.compare .A ≤ 36864 :=
  (C25_compare_value_within_period
    { exampleServo with timerTicks1us := __ticksPerMicroS 36864,
                        minPulseWidthUs := 0, maxPulseWidthUs := 20000 }
    .TIMER_PRESCALE_8 Mcu.reset 65535 36864
    (by decide) (Or.inl rfl) (by decide) (by decide)).2

end LLAVR
